import Mathlib

/-!
Shallow embedding of the page-object-generator core of the repository
`tomodakengo/playwright-ai` (files `src/page-object-generator/generator.ts`,
`diff.ts`, `types.ts`), together with proofs about the claims on locator
resolution, naming, deduplication, template synthesis and metadata diffing.

Strings are modelled by Lean `String` (a wrapper around `List Char`); JS
string operations are modelled on the character list.  JS `.length` and
`.substring` count UTF-16 code units while Lean counts characters; the two
agree on all basic-plane text, which is the domain of every claim here.
JS truthiness of a nullable string field (`if (info.x)`) is: present and
non-empty.
-/

/-- The `LocatorType` union of `types.ts`. -/
inductive LocatorType where
  | getByRole
  | getByLabel
  | getByText
  | getByPlaceholder
  | getByTestId
  | locator
deriving DecidableEq

/-- The `ElementType` union of `types.ts`. -/
inductive ElementType where
  | button
  | input
  | link
  | select
  | checkbox
  | radio
  | textarea
  | heading
  | other
deriving DecidableEq

/-- `ElementInfo` of `types.ts`: all fields but `tagName` are nullable. -/
structure ElementInfo where
  tagName : String
  role : Option String
  label : Option String
  text : Option String
  placeholder : Option String
  name : Option String
  id : Option String
  className : Option String
  type : Option String
  ariaLabel : Option String
  testId : Option String
deriving DecidableEq

/-- JS truthiness of a nullable string: present and non-empty. -/
def truthy : Option String → Bool
  | none => false
  | some s => s != ""

/-- The lowercase string a JS template literal renders an `ElementType` as
(used in `unnamed${elementType}`). -/
def elementTypeString : ElementType → String
  | ElementType.button => "button"
  | ElementType.input => "input"
  | ElementType.link => "link"
  | ElementType.select => "select"
  | ElementType.checkbox => "checkbox"
  | ElementType.radio => "radio"
  | ElementType.textarea => "textarea"
  | ElementType.heading => "heading"
  | ElementType.other => "other"

/-- `str.replace(/'/g, "\\'")`: a backslash is inserted before every
single quote. -/
def escapeQuotes : List Char → List Char
  | [] => []
  | c :: rest =>
    if c = '\'' then '\\' :: '\'' :: escapeQuotes rest else c :: escapeQuotes rest

/-- `str.replace(/\n/g, ' ')` applied to one character. -/
def nlToSpace (c : Char) : Char :=
  if c = '\n' then ' ' else c

/-- `str.trim()`: strip leading and trailing whitespace (modelled with
`Char.isWhitespace`, which covers the whitespace occurring in this
program's data). -/
def jsTrim (cs : List Char) : List Char :=
  ((cs.dropWhile Char.isWhitespace).reverse.dropWhile Char.isWhitespace).reverse

/-- `PageObjectGenerator.escapeString`:
`str.replace(/'/g, "\\'").replace(/\n/g, ' ').trim()`. -/
def escapeString (s : String) : String :=
  String.mk (jsTrim ((escapeQuotes s.data).map nlToSpace))

/-- The `roleMap` record inside `PageObjectGenerator.generateLocator`. -/
def roleMap : ElementType → String
  | ElementType.button => "button"
  | ElementType.link => "link"
  | ElementType.input => "textbox"
  | ElementType.select => "combobox"
  | ElementType.checkbox => "checkbox"
  | ElementType.radio => "radio"
  | ElementType.textarea => "textbox"
  | ElementType.heading => "heading"
  | ElementType.other => ""

/-- `PageObjectGenerator.tryGenerateLocator`: one strategy's applicability
test and production.  Note the `getByRole` text branch truncates
(`info.text.substring(0, 50)`) rather than testing the length, while the
`getByText` branch tests `info.text.length <= 50`. -/
def tryGenerateLocator (info : ElementInfo) (elementType : ElementType)
    (role : String) : LocatorType → Option (String × LocatorType)
  | LocatorType.getByRole =>
    if role != "" && truthy info.ariaLabel then
      some ("getByRole('" ++ role ++ "', \x7b name: '"
        ++ escapeString (info.ariaLabel.getD "") ++ "' \x7d)", LocatorType.getByRole)
    else if role != "" && truthy info.text
        && (elementType == ElementType.button || elementType == ElementType.link
            || elementType == ElementType.heading) then
      some ("getByRole('" ++ role ++ "', \x7b name: '"
        ++ escapeString (String.mk ((info.text.getD "").data.take 50)) ++ "' \x7d)",
        LocatorType.getByRole)
    else none
  | LocatorType.getByLabel =>
    if truthy info.label then
      some ("getByLabel('" ++ escapeString (info.label.getD "") ++ "')",
        LocatorType.getByLabel)
    else none
  | LocatorType.getByPlaceholder =>
    if truthy info.placeholder then
      some ("getByPlaceholder('" ++ escapeString (info.placeholder.getD "") ++ "')",
        LocatorType.getByPlaceholder)
    else none
  | LocatorType.getByTestId =>
    if truthy info.testId then
      some ("getByTestId('" ++ escapeString (info.testId.getD "") ++ "')",
        LocatorType.getByTestId)
    else none
  | LocatorType.getByText =>
    if truthy info.text && decide ((info.text.getD "").length ≤ 50) then
      some ("getByText('" ++ escapeString (info.text.getD "") ++ "')",
        LocatorType.getByText)
    else none
  | LocatorType.locator =>
    if truthy info.id then
      some ("locator('#" ++ escapeString (info.id.getD "") ++ "')",
        LocatorType.locator)
    else if truthy info.name then
      some ("locator('[name=\"" ++ escapeString (info.name.getD "") ++ "\"]')",
        LocatorType.locator)
    else if truthy info.className then
      some ("locator('."
        ++ escapeString (String.mk ((info.className.getD "").data.takeWhile (fun c => c != ' ')))
        ++ "')", LocatorType.locator)
    else none

/-- `namingRules` of `GeneratorConfig` (`types.ts`); the suffix record is a
total map from element types. -/
structure NamingRules where
  maxTextLength : Nat
  suffixes : ElementType → String
  useCamelCase : Bool

/-- `ignoreRules` of `GeneratorConfig` (`types.ts`). -/
structure IgnoreRules where
  ignoreClasses : List String
  ignoreIds : List String
  ignoreRoles : List String

/-- `templateOptions` of `GeneratorConfig` (`types.ts`). -/
structure TemplateOptions where
  generateHelperMethods : Bool
  includeGotoMethod : Bool

/-- `GeneratorConfig` of `types.ts`. -/
structure GeneratorConfig where
  locatorPriority : List LocatorType
  namingRules : NamingRules
  ignoreRules : IgnoreRules
  templateOptions : TemplateOptions

/-- `DEFAULT_CONFIG` of `types.ts`. -/
def DEFAULT_CONFIG : GeneratorConfig where
  locatorPriority :=
    [LocatorType.getByRole, LocatorType.getByLabel, LocatorType.getByPlaceholder,
     LocatorType.getByTestId, LocatorType.getByText, LocatorType.locator]
  namingRules :=
    { maxTextLength := 30
      suffixes := fun et =>
        match et with
        | ElementType.button => "Button"
        | ElementType.input => "Input"
        | ElementType.link => "Link"
        | ElementType.select => "Select"
        | ElementType.checkbox => "Checkbox"
        | ElementType.radio => "Radio"
        | ElementType.textarea => "Textarea"
        | ElementType.heading => "Heading"
        | ElementType.other => "Element"
      useCamelCase := true }
  ignoreRules := { ignoreClasses := [], ignoreIds := [], ignoreRoles := [] }
  templateOptions := { generateHelperMethods := true, includeGotoMethod := true }

/-- The `for (const locatorType of this.config.locatorPriority)` walk of
`PageObjectGenerator.generateLocator`: first applicable strategy wins. -/
def resolveWithPriority (info : ElementInfo) (elementType : ElementType)
    (role : String) : List LocatorType → Option (String × LocatorType)
  | [] => none
  | lt :: rest =>
    match tryGenerateLocator info elementType role lt with
    | some r => some r
    | none => resolveWithPriority info elementType role rest

/-- `PageObjectGenerator.generateLocator`: walk the priority list, and fall
back to the bare tag-name selector when no strategy applied. -/
def generateLocator (config : GeneratorConfig) (info : ElementInfo)
    (elementType : ElementType) : String × LocatorType :=
  match resolveWithPriority info elementType (roleMap elementType) config.locatorPriority with
  | some r => r
  | none => ("locator('" ++ info.tagName ++ "')", LocatorType.locator)

/-- The character cleaning of `toCamelCase`:
`str.replace(/[^a-zA-Z0-9\s]/g, ' ')`. -/
def cleanChar (c : Char) : Char :=
  if c.isAlphanum || c.isWhitespace then c else ' '

/-- Maximal runs of non-whitespace characters: `split(/\s+/)` followed by
`filter(Boolean)`.  Fuel-indexed so that it reduces definitionally; the
fuel `cs.length` always suffices because every step consumes at least one
character. -/
def splitWordsAux : Nat → List Char → List (List Char)
  | 0, _ => []
  | _ + 1, [] => []
  | fuel + 1, c :: rest =>
    if c.isWhitespace then splitWordsAux fuel rest
    else
      (c :: rest.takeWhile (fun d => !d.isWhitespace))
        :: splitWordsAux fuel (rest.dropWhile (fun d => !d.isWhitespace))

/-- The words of a character list (maximal non-whitespace runs). -/
def splitWords (cs : List Char) : List (List Char) :=
  splitWordsAux cs.length cs

/-- `word.toLowerCase()` (modelled on ASCII, which covers this program's
identifiers). -/
def lowerWord (w : List Char) : List Char :=
  w.map Char.toLower

/-- `lower.charAt(0).toUpperCase() + lower.slice(1)`. -/
def capitalize : List Char → List Char
  | [] => []
  | c :: rest => Char.toUpper c :: rest

/-- The per-word mapping of `toCamelCase`: first word lowercased, later
words lowercased then capitalized, joined by `''`. -/
def camelWords : List (List Char) → List Char
  | [] => []
  | w :: rest => lowerWord w ++ (rest.map (fun v => capitalize (lowerWord v))).flatten

/-- `PageObjectGenerator.toCamelCase`. -/
def toCamelCase (s : String) : String :=
  String.mk (camelWords (splitWords (s.data.map cleanChar)))

/-- `PageObjectGenerator.toPascalCase`. -/
def toPascalCase (s : String) : String :=
  String.mk (capitalize (toCamelCase s).data)

/-- `PageObjectGenerator.generateElementName`: the base-name fallback
chain, optional camel-casing, and the category suffix
(`suffixes[elementType] || 'Element'`). -/
def generateElementName (config : GeneratorConfig) (info : ElementInfo)
    (elementType : ElementType) : String :=
  let maxLength := config.namingRules.maxTextLength
  let baseName :=
    if truthy info.ariaLabel then info.ariaLabel.getD ""
    else if truthy info.label then info.label.getD ""
    else if truthy info.placeholder then info.placeholder.getD ""
    else if truthy info.text && decide ((info.text.getD "").length ≤ maxLength) then
      info.text.getD ""
    else if truthy info.name then info.name.getD ""
    else if truthy info.id then info.id.getD ""
    else if truthy info.testId then info.testId.getD ""
    else "unnamed" ++ elementTypeString elementType
  let processedName :=
    if config.namingRules.useCamelCase then toCamelCase baseName else baseName
  let suffix :=
    if config.namingRules.suffixes elementType != "" then
      config.namingRules.suffixes elementType
    else "Element"
  processedName ++ suffix

/-- `AnalyzedElement` of `types.ts`. -/
structure AnalyzedElement where
  name : String
  locatorCode : String
  locatorType : LocatorType
  elementType : ElementType
  originalInfo : ElementInfo
deriving DecidableEq

/-- `AnalyzedPage` of `types.ts`. -/
structure AnalyzedPage where
  buttons : List AnalyzedElement
  inputs : List AnalyzedElement
  links : List AnalyzedElement
  selects : List AnalyzedElement
  checkboxes : List AnalyzedElement
  radios : List AnalyzedElement
  textareas : List AnalyzedElement
  headings : List AnalyzedElement
  others : List AnalyzedElement

/-- `PageObjectGenerator.flattenElements`: note that `others` is included,
at the end. -/
def flattenElements (elements : AnalyzedPage) : List AnalyzedElement :=
  elements.buttons ++ elements.inputs ++ elements.links ++ elements.selects
    ++ elements.checkboxes ++ elements.radios ++ elements.textareas
    ++ elements.headings ++ elements.others

/-- The character a JS number renders a decimal digit as. -/
def jsDigitChar (n : Nat) : Char :=
  if n = 0 then '0' else if n = 1 then '1' else if n = 2 then '2'
  else if n = 3 then '3' else if n = 4 then '4' else if n = 5 then '5'
  else if n = 6 then '6' else if n = 7 then '7' else if n = 8 then '8'
  else if n = 9 then '9' else '*'

/-- Decimal digits of a natural number, most significant first.
Fuel-indexed so that it reduces definitionally; fuel `n + 1` always
suffices because the value shrinks by a factor of ten each step. -/
def natDigitsAux : Nat → Nat → List Char
  | 0, _ => []
  | fuel + 1, n =>
    if n < 10 then [jsDigitChar n]
    else natDigitsAux fuel (n / 10) ++ [jsDigitChar (n % 10)]

/-- The string a JS template literal renders a natural number as
(`${counter}`). -/
def natToString (n : Nat) : String :=
  String.mk (natDigitsAux (n + 1) n)

/-- The `while (seen.has(newName)) { counter++; ... }` probe of
`deduplicateElements`: try `name + counter`, `name + (counter+1)`, …
until a candidate is not in `seen`.  Fuel-indexed; fuel
`seen.length + 1` always suffices because the candidates are pairwise
distinct strings (proved below), so at most `seen.length` of them can
collide. -/
def probeLoop (name : String) (seen : List String) : Nat → Nat → String
  | 0, counter => name ++ natToString counter
  | fuel + 1, counter =>
    let cand := name ++ natToString counter
    if cand ∈ seen then probeLoop name seen fuel (counter + 1) else cand

/-- The fresh name chosen for a colliding element: probing starts at
counter 2. -/
def probeName (name : String) (seen : List String) : String :=
  probeLoop name seen (seen.length + 1) 2

/-- The loop body of `PageObjectGenerator.deduplicateElements`: `seen` is
the list of map keys inserted so far (in insertion order); each processed
element inserts exactly one fresh key, and the output is the map's values
in insertion order. -/
def dedupGo (seen : List String) : List AnalyzedElement → List AnalyzedElement
  | [] => []
  | e :: rest =>
    if e.name ∈ seen then
      let newName := probeName e.name seen
      { e with name := newName } :: dedupGo (seen ++ [newName]) rest
    else
      e :: dedupGo (seen ++ [e.name]) rest

/-- `PageObjectGenerator.deduplicateElements`. -/
def deduplicateElements (elements : List AnalyzedElement) : List AnalyzedElement :=
  dedupGo [] elements

/-- `str.replace(/Sfx$/, '')` for a literal suffix: strip it when present
at the end, else leave the string unchanged. -/
def stripEnd (s : String) (sfx : String) : String :=
  if sfx.data.isSuffixOf s.data then
    String.mk (s.data.take (s.data.length - sfx.data.length))
  else s

/-- `name.replace(/(Input|Textarea)$/, '')`. -/
def stripInputEnd (s : String) : String :=
  if ("Input").data.isSuffixOf s.data then stripEnd s "Input"
  else if ("Textarea").data.isSuffixOf s.data then stripEnd s "Textarea"
  else s

/-- `PageObjectGenerator.generateHelperMethods`: five loops appending one
method block per element of the click/fill/select/check categories; the
`other`, `radio` and `heading` categories contribute nothing. -/
def generateHelperMethods (elements : List AnalyzedElement) : String :=
  let buttonElements := elements.filter (fun e => e.elementType == ElementType.button)
  let s1 := buttonElements.foldl
    (fun acc button => acc
      ++ ("\n  async click" ++ toPascalCase (stripEnd button.name "Button")
        ++ "(): Promise<void> \x7b\n    await this." ++ button.name
        ++ ".click();\n  \x7d\n")) ""
  let inputElements := elements.filter
    (fun e => e.elementType == ElementType.input || e.elementType == ElementType.textarea)
  let s2 := inputElements.foldl
    (fun acc input => acc
      ++ ("\n  async fill" ++ toPascalCase (stripInputEnd input.name)
        ++ "(value: string): Promise<void> \x7b\n    await this." ++ input.name
        ++ ".fill(value);\n  \x7d\n")) s1
  let selectElements := elements.filter (fun e => e.elementType == ElementType.select)
  let s3 := selectElements.foldl
    (fun acc select => acc
      ++ ("\n  async select" ++ toPascalCase (stripEnd select.name "Select")
        ++ "(value: string): Promise<void> \x7b\n    await this." ++ select.name
        ++ ".selectOption(value);\n  \x7d\n")) s2
  let checkboxElements := elements.filter (fun e => e.elementType == ElementType.checkbox)
  let s4 := checkboxElements.foldl
    (fun acc checkbox => acc
      ++ ("\n  async check" ++ toPascalCase (stripEnd checkbox.name "Checkbox")
        ++ "(): Promise<void> \x7b\n    await this." ++ checkbox.name
        ++ ".check();\n  \x7d\n\n  async uncheck" ++ toPascalCase (stripEnd checkbox.name "Checkbox")
        ++ "(): Promise<void> \x7b\n    await this." ++ checkbox.name
        ++ ".uncheck();\n  \x7d\n")) s3
  let linkElements := elements.filter (fun e => e.elementType == ElementType.link)
  linkElements.foldl
    (fun acc link => acc
      ++ ("\n  async click" ++ toPascalCase (stripEnd link.name "Link")
        ++ "Link(): Promise<void> \x7b\n    await this." ++ link.name
        ++ ".click();\n  \x7d\n")) s4

/-- `PageObjectGenerator.generateTemplate`: class header, one declaration
per deduplicated element, constructor wiring, optional `goto` helper,
optional per-category helper methods, closing brace. -/
def generateTemplate (config : GeneratorConfig) (pageName : String)
    (elements : AnalyzedPage) : String :=
  let className := toPascalCase pageName ++ "Page"
  let allElements := flattenElements elements
  let uniqueElements := deduplicateElements allElements
  let header := "import \x7b Page, Locator \x7d from '@playwright/test';\n\nexport class "
    ++ className ++ " \x7b\n  readonly page: Page;\n"
  let decls := uniqueElements.foldl
    (fun acc element => acc ++ ("  readonly " ++ element.name ++ ": Locator;\n")) header
  let ctorHead := decls ++ "\n  constructor(page: Page) \x7b\n    this.page = page;\n"
  let wires := uniqueElements.foldl
    (fun acc element => acc
      ++ ("    this." ++ element.name ++ " = page." ++ element.locatorCode ++ ";\n")) ctorHead
  let closedCtor := wires ++ "  \x7d\n"
  let withGoto :=
    if config.templateOptions.includeGotoMethod then
      closedCtor
        ++ "\n  async goto(url: string): Promise<void> \x7b\n    await this.page.goto(url);\n  \x7d\n"
    else closedCtor
  let withHelpers :=
    if config.templateOptions.generateHelperMethods then
      withGoto ++ generateHelperMethods uniqueElements
    else withGoto
  withHelpers ++ "\x7d\n"

/-- `PageObjectMetadata` of `types.ts` (the configuration snapshot and
screenshot path play no role in the compared data). -/
structure PageObjectMetadata where
  url : String
  pageName : String
  generatedAt : String
  elementCount : Nat
  elements : List AnalyzedElement
  screenshotPath : Option String

/-- `DiffResult` of `types.ts`. -/
structure DiffResult where
  added : List AnalyzedElement
  removed : List AnalyzedElement
  modified : List (AnalyzedElement × AnalyzedElement)
  unchanged : List AnalyzedElement
deriving DecidableEq

namespace PageObjectDiff

/-- JS `Map.set`: overwrite in place when the key exists, else append. -/
def mapSet (m : List (String × AnalyzedElement)) (k : String) (v : AnalyzedElement) :
    List (String × AnalyzedElement) :=
  if m.any (fun p => p.1 == k) then
    m.map (fun p => if p.1 == k then (k, v) else p)
  else m ++ [(k, v)]

/-- `new Map(list.map(e => [e.name, e]))`: keys in first-insertion order,
later duplicates overwriting the value. -/
def buildMap (es : List AnalyzedElement) : List (String × AnalyzedElement) :=
  es.foldl (fun m e => mapSet m e.name e) []

/-- JS `Map.get`. -/
def mapGet (m : List (String × AnalyzedElement)) (k : String) : Option AnalyzedElement :=
  (m.find? (fun p => p.1 == k)).map (fun p => p.2)

/-- JS `Map.has`. -/
def mapHas (m : List (String × AnalyzedElement)) (k : String) : Bool :=
  m.any (fun p => p.1 == k)

/-- The first loop of `PageObjectDiff.compare`: classify every entry of the
new map as added, modified or unchanged, pushing onto the accumulator. -/
def compareLoop (oldElements : List (String × AnalyzedElement)) (acc : DiffResult) :
    List (String × AnalyzedElement) → DiffResult
  | [] => acc
  | (name, newEl) :: rest =>
    match mapGet oldElements name with
    | none => compareLoop oldElements { acc with added := acc.added ++ [newEl] } rest
    | some oldEl =>
      if oldEl.locatorCode != newEl.locatorCode then
        compareLoop oldElements { acc with modified := acc.modified ++ [(oldEl, newEl)] } rest
      else
        compareLoop oldElements { acc with unchanged := acc.unchanged ++ [newEl] } rest

/-- `PageObjectDiff.compare`: the first loop fills added/modified/unchanged
from the new map; the second loop fills removed from the old map's entries
whose name the new map lacks. -/
def compare (oldMetadata newMetadata : PageObjectMetadata) : DiffResult :=
  let oldElements := buildMap oldMetadata.elements
  let newElements := buildMap newMetadata.elements
  let d := compareLoop oldElements
    { added := [], removed := [], modified := [], unchanged := [] } newElements
  { d with removed :=
      (oldElements.filter (fun p => !(mapHas newElements p.1))).map (fun p => p.2) }

/-- `PageObjectDiff.hasChanges`. -/
def hasChanges (diff : DiffResult) : Bool :=
  decide (0 < diff.added.length) || decide (0 < diff.removed.length)
    || decide (0 < diff.modified.length)

end PageObjectDiff

lemma append_length_pos (a b : String) (h : 0 < a.length) : 0 < (a ++ b).length := by
  rw [String.length_append]
  omega

lemma tryGenerateLocator_some_pos (info : ElementInfo) (et : ElementType) (role : String)
    (lt : LocatorType) (r : String × LocatorType)
    (h : tryGenerateLocator info et role lt = some r) : 0 < r.1.length := by
  have p1 : 0 < ("getByRole('" : String).length := by decide
  have p2 : 0 < ("getByLabel('" : String).length := by decide
  have p3 : 0 < ("getByPlaceholder('" : String).length := by decide
  have p4 : 0 < ("getByTestId('" : String).length := by decide
  have p5 : 0 < ("getByText('" : String).length := by decide
  have p6 : 0 < ("locator('#" : String).length := by decide
  have p7 : 0 < ("locator('[name=\"" : String).length := by decide
  have p8 : 0 < ("locator('." : String).length := by decide
  cases lt <;> simp only [tryGenerateLocator] at h <;> split at h <;>
      (try split at h) <;> (try split at h) <;>
    first
      | (cases Option.some.inj h; simp only [String.length_append]; omega)
      | exact Option.noConfusion h

lemma tryGenerateLocator_nullFields (tag : String) (et : ElementType) (role : String)
    (lt : LocatorType) :
    tryGenerateLocator
      { tagName := tag, role := none, label := none, text := none, placeholder := none,
        name := none, id := none, className := none, type := none, ariaLabel := none,
        testId := none } et role lt = none := by
  cases lt <;> simp [tryGenerateLocator, truthy]

lemma resolveWithPriority_none (info : ElementInfo) (et : ElementType) (role : String)
    (hall : ∀ lt, tryGenerateLocator info et role lt = none) :
    ∀ priority, resolveWithPriority info et role priority = none := by
  intro priority
  induction priority with
  | nil => rfl
  | cons lt rest ih => simp [resolveWithPriority, hall lt, ih]

lemma resolveWithPriority_some_pos (info : ElementInfo) (et : ElementType) (role : String)
    (priority : List LocatorType) (r : String × LocatorType)
    (h : resolveWithPriority info et role priority = some r) : 0 < r.1.length := by
  induction priority with
  | nil => exact Option.noConfusion h
  | cons lt rest ih =>
    rw [resolveWithPriority] at h
    cases htry : tryGenerateLocator info et role lt with
    | none =>
      rw [htry] at h
      exact ih h
    | some r0 =>
      rw [htry] at h
      cases Option.some.inj h
      exact tryGenerateLocator_some_pos info et role lt _ htry

/-- C5: for every ElementDescriptor (including one with every optional field
null) and every category, the Locator Resolver terminates (it is a total
function) and produces a non-empty locator expression; when no strategy in
the configured priority list applies it falls back to the bare tag-name
selector. -/
theorem locator_totality :
    (∀ (config : GeneratorConfig) (info : ElementInfo) (elementType : ElementType),
        0 < (generateLocator config info elementType).1.length)
    ∧ (∀ (config : GeneratorConfig) (tag : String) (elementType : ElementType),
        generateLocator config
          { tagName := tag, role := none, label := none, text := none, placeholder := none,
            name := none, id := none, className := none, type := none, ariaLabel := none,
            testId := none } elementType
          = ("locator('" ++ tag ++ "')", LocatorType.locator))
    ∧ (∀ (config : GeneratorConfig) (info : ElementInfo) (elementType : ElementType),
        resolveWithPriority info elementType (roleMap elementType) config.locatorPriority = none →
        generateLocator config info elementType
          = ("locator('" ++ info.tagName ++ "')", LocatorType.locator)) := by
  refine ⟨?_, ?_, ?_⟩
  · intro config info elementType
    unfold generateLocator
    cases hres : resolveWithPriority info elementType (roleMap elementType) config.locatorPriority with
    | none =>
      have h : 0 < ("locator('" : String).length := by decide
      simp only [String.length_append]
      omega
    | some r =>
      exact resolveWithPriority_some_pos info elementType (roleMap elementType)
        config.locatorPriority r hres
  · intro config tag elementType
    unfold generateLocator
    rw [resolveWithPriority_none _ _ _ (tryGenerateLocator_nullFields tag elementType _)]
  · intro config info elementType h
    unfold generateLocator
    rw [h]

def nullDivInfo : ElementInfo :=
  { tagName := "div", role := none, label := none, text := none, placeholder := none,
    name := none, id := none, className := none, type := none, ariaLabel := none,
    testId := none }

/-- Witness for C5 at a concrete all-null descriptor with an empty-handed
priority walk. -/
theorem locator_totality_witness :
    generateLocator DEFAULT_CONFIG nullDivInfo ElementType.other
      = ("locator('" ++ ("div" : String) ++ "')", LocatorType.locator) :=
  locator_totality.2.2 DEFAULT_CONFIG nullDivInfo ElementType.other (by decide)

def emptyPriorityConfig : GeneratorConfig :=
  { DEFAULT_CONFIG with locatorPriority := [] }

def infoC9 : ElementInfo :=
  { tagName := "input", role := none, label := none, text := none, placeholder := none,
    name := none, id := some "email", className := none, type := some "email",
    ariaLabel := some "Email address", testId := some "email-field" }

/-- C9 counterexample: with an empty locator-strategy priority list,
resolution does not fail with a configuration error; it silently returns
the bare tag-name fallback even for a descriptor rich in signals. -/
theorem empty_priority_silent_fallback_cex :
    generateLocator emptyPriorityConfig infoC9 ElementType.input
      = ("locator('input')", LocatorType.locator) := by
  decide

/-- C9 (amended): if the configured priority list is empty, locator
resolution silently produces the bare tag-name fallback; no configuration
error is raised. -/
theorem empty_priority_fallback (config : GeneratorConfig) (info : ElementInfo)
    (elementType : ElementType) (h : config.locatorPriority = []) :
    generateLocator config info elementType
      = ("locator('" ++ info.tagName ++ "')", LocatorType.locator) := by
  unfold generateLocator
  rw [h]
  rfl

/-- Witness for C9 (amended) at a concrete configuration and descriptor. -/
theorem empty_priority_fallback_witness :
    generateLocator emptyPriorityConfig infoC9 ElementType.button
      = ("locator('" ++ infoC9.tagName ++ "')", LocatorType.locator) :=
  empty_priority_fallback emptyPriorityConfig infoC9 ElementType.button (by decide)

def infoC3 : ElementInfo :=
  { tagName := "button", role := some "button", label := none, text := none,
    placeholder := none, name := none, id := none, className := none,
    type := none, ariaLabel := some "Log in", testId := none }

/-- C3 counterexample: for the descriptor with aria-label "Log in" and
category button under the default configuration, the generated identifier
is "logInButton" (camel-casing splits the two words), not "loginButton" as
the claim states. -/
theorem login_scenario_cex :
    generateElementName DEFAULT_CONFIG infoC3 ElementType.button ≠ "loginButton"
    ∧ generateElementName DEFAULT_CONFIG infoC3 ElementType.button = "logInButton" := by
  exact ⟨by decide, by decide⟩

/-- C3 (amended): for the descriptor with aria-label "Log in", category
button, default priority, the resolver picks the role+name strategy with
role button and name Log in, and the identifier is "logInButton". -/
theorem login_scenario_spec :
    generateLocator DEFAULT_CONFIG infoC3 ElementType.button
      = ("getByRole('button', \x7b name: 'Log in' \x7d)", LocatorType.getByRole)
    ∧ generateElementName DEFAULT_CONFIG infoC3 ElementType.button = "logInButton" := by
  exact ⟨by decide, by decide⟩

def longTextC2 : String :=
  "This button label is deliberately much longer than fifty characters"

def infoC2 : ElementInfo :=
  { tagName := "button", role := none, label := none, text := some longTextC2,
    placeholder := none, name := none, id := none, className := none,
    type := none, ariaLabel := none, testId := none }

/-- C2 counterexample: a button descriptor with no aria-label and visible
text of 67 characters still gets the role+accessible-name strategy; the
code truncates the text to its first 50 characters instead of rejecting
the strategy. -/
theorem roleName_truncation_cex :
    50 < longTextC2.length
    ∧ infoC2.ariaLabel = none
    ∧ tryGenerateLocator infoC2 ElementType.button (roleMap ElementType.button)
        LocatorType.getByRole
      = some ("getByRole('button', \x7b name: 'This button label is deliberately much longer than' \x7d)",
          LocatorType.getByRole) := by
  refine ⟨by decide, rfl, by decide⟩

/-- C2 (amended): the role+accessible-name strategy is applicable exactly
when the category maps to a recognized role AND either an aria-label is
present or (for button/link/heading only) visible text is present; it
produces the role token plus the escaped aria-label when present, else the
escaped first 50 characters of the visible text. -/
theorem roleName_strategy_spec (info : ElementInfo) (elementType : ElementType) :
    ((tryGenerateLocator info elementType (roleMap elementType) LocatorType.getByRole).isSome
      = (roleMap elementType != ""
          && (truthy info.ariaLabel
              || (truthy info.text
                  && (elementType == ElementType.button || elementType == ElementType.link
                      || elementType == ElementType.heading)))))
    ∧ ((roleMap elementType != "") = true → truthy info.ariaLabel = true →
        tryGenerateLocator info elementType (roleMap elementType) LocatorType.getByRole
          = some ("getByRole('" ++ roleMap elementType ++ "', \x7b name: '"
              ++ escapeString (info.ariaLabel.getD "") ++ "' \x7d)", LocatorType.getByRole))
    ∧ ((roleMap elementType != "") = true → truthy info.ariaLabel = false →
        truthy info.text = true →
        (elementType == ElementType.button || elementType == ElementType.link
          || elementType == ElementType.heading) = true →
        tryGenerateLocator info elementType (roleMap elementType) LocatorType.getByRole
          = some ("getByRole('" ++ roleMap elementType ++ "', \x7b name: '"
              ++ escapeString (String.mk ((info.text.getD "").data.take 50)) ++ "' \x7d)",
            LocatorType.getByRole)) := by
  refine ⟨?_, ?_, ?_⟩
  · cases hr : (roleMap elementType != "") <;> cases ha : truthy info.ariaLabel <;>
      cases ht : truthy info.text <;>
      cases hc : (elementType == ElementType.button || elementType == ElementType.link
        || elementType == ElementType.heading) <;>
      simp [tryGenerateLocator, hr, ha, ht, hc]
  · intro hr ha
    simp [tryGenerateLocator, hr, ha]
  · intro hr ha ht hc
    simp [tryGenerateLocator, hr, ha, ht, hc]

/-- Witness for C2 (amended) at the concrete Log in button descriptor. -/
theorem roleName_strategy_spec_witness :
    tryGenerateLocator infoC3 ElementType.button (roleMap ElementType.button)
        LocatorType.getByRole
      = some ("getByRole('" ++ roleMap ElementType.button ++ "', \x7b name: '"
          ++ escapeString (infoC3.ariaLabel.getD "") ++ "' \x7d)", LocatorType.getByRole) :=
  (roleName_strategy_spec infoC3 ElementType.button).2.1 (by decide) (by decide)

/-- Scanner for "every single quote is immediately preceded by a
backslash": `prev` is the previous character, if any. -/
def noRawQuoteAux (prev : Option Char) : List Char → Bool
  | [] => true
  | c :: rest => (c != '\'' || prev == some '\\') && noRawQuoteAux (some c) rest

/-- A character list has no raw (unescaped) single quote. -/
def noRawQuote (cs : List Char) : Bool :=
  noRawQuoteAux none cs

lemma noRawQuoteAux_irrel (l : List Char) (p : Option Char) (hp : p ≠ some '\\') :
    noRawQuoteAux p l = noRawQuoteAux none l := by
  cases l with
  | nil => rfl
  | cons c rest =>
    have : (p == some '\\') = false := by
      cases hpe : p == some '\\' with
      | true => exact absurd (eq_of_beq hpe) hp
      | false => rfl
    simp [noRawQuoteAux, this]

lemma noRawQuoteAux_escaped (cs : List Char) : ∀ p,
    noRawQuoteAux p ((escapeQuotes cs).map nlToSpace) = true := by
  induction cs with
  | nil => intro p; rfl
  | cons c rest ih =>
    intro p
    by_cases hc : c = '\''
    · subst hc
      have h1 : nlToSpace '\\' = '\\' := by decide
      have h2 : nlToSpace '\'' = '\'' := by decide
      simp [escapeQuotes, noRawQuoteAux, h1, h2, ih]
    · simp only [escapeQuotes, if_neg hc, List.map_cons]
      have hne : nlToSpace c ≠ '\'' := by
        unfold nlToSpace
        split
        · decide
        · exact fun h => hc h
      simp [noRawQuoteAux, hne, ih]

lemma noRawQuoteAux_append_left (a b : List Char) : ∀ p,
    noRawQuoteAux p (a ++ b) = true → noRawQuoteAux p a = true := by
  induction a with
  | nil => intro p _; rfl
  | cons c rest ih =>
    intro p h
    simp only [List.cons_append, noRawQuoteAux, Bool.and_eq_true] at h ⊢
    exact ⟨h.1, ih (some c) h.2⟩

lemma noRawQuote_dropWhile (l : List Char)
    (h : noRawQuote l = true) :
    noRawQuote (l.dropWhile Char.isWhitespace) = true := by
  induction l with
  | nil => exact h
  | cons c rest ih =>
    simp only [noRawQuote, noRawQuoteAux, Bool.and_eq_true] at h
    by_cases hw : Char.isWhitespace c
    · rw [List.dropWhile_cons_of_pos hw]
      apply ih
      have hcb : c ≠ '\\' := by
        intro hcc
        subst hcc
        exact absurd hw (by decide)
      have : (some c : Option Char) ≠ some '\\' := by
        intro hx
        exact hcb (Option.some.inj hx)
      rw [noRawQuote, ← noRawQuoteAux_irrel rest (some c) this]
      exact h.2
    · rw [List.dropWhile_cons_of_neg hw]
      simp only [noRawQuote, noRawQuoteAux, Bool.and_eq_true]
      exact ⟨h.1, h.2⟩

lemma noRawQuote_isPrefix (a l : List Char) (hpre : a <+: l)
    (h : noRawQuote l = true) : noRawQuote a = true := by
  obtain ⟨t, rfl⟩ := hpre
  exact noRawQuoteAux_append_left a t none h

lemma noRawQuote_jsTrim (l : List Char) (h : noRawQuote l = true) :
    noRawQuote (jsTrim l) = true := by
  unfold jsTrim
  have h1 : noRawQuote (l.dropWhile Char.isWhitespace) = true := noRawQuote_dropWhile l h
  set l1 := l.dropWhile Char.isWhitespace with hl1
  have hsuf : ((l1.reverse.dropWhile Char.isWhitespace)) <:+ l1.reverse :=
    List.dropWhile_suffix _
  have hpre : (l1.reverse.dropWhile Char.isWhitespace).reverse <+: l1 := by
    have := List.reverse_prefix.mpr hsuf
    rwa [List.reverse_reverse] at this
  exact noRawQuote_isPrefix _ l1 hpre h1

lemma nlToSpace_ne_nl (c : Char) : nlToSpace c ≠ '\n' := by
  unfold nlToSpace
  split
  · decide
  · assumption

lemma jsTrim_subset (l : List Char) : jsTrim l ⊆ l := by
  intro x hx
  unfold jsTrim at hx
  rw [List.mem_reverse] at hx
  have hx2 := (List.dropWhile_suffix (l := (l.dropWhile Char.isWhitespace).reverse)
    Char.isWhitespace).subset hx
  rw [List.mem_reverse] at hx2
  exact (List.dropWhile_suffix (l := l) Char.isWhitespace).subset hx2

/-- C6: for every input string containing a single quote and a newline, the
escaped locator argument contains no raw (unescaped) single quote — every
quote in the output is immediately preceded by a backslash — and no
newline. -/
theorem escape_safety (s : String) (_hq : '\'' ∈ s.data) (_hn : '\n' ∈ s.data) :
    noRawQuote (escapeString s).data = true ∧ '\n' ∉ (escapeString s).data := by
  constructor
  · show noRawQuote (jsTrim ((escapeQuotes s.data).map nlToSpace)) = true
    exact noRawQuote_jsTrim _ (noRawQuoteAux_escaped s.data none)
  · intro hmem
    have hmem2 : '\n' ∈ (escapeQuotes s.data).map nlToSpace := jsTrim_subset _ hmem
    obtain ⟨c, _, hc⟩ := List.mem_map.mp hmem2
    exact nlToSpace_ne_nl c hc

/-- Witness for C6 at a concrete string with a quote and a newline. -/
theorem escape_safety_witness :
    noRawQuote (escapeString "a'b\nc").data = true
    ∧ '\n' ∉ (escapeString "a'b\nc").data :=
  escape_safety "a'b\nc" (by decide) (by decide)

/-- Numeric value of a decimal digit character. -/
def digitVal (c : Char) : Nat :=
  c.toNat - ('0').toNat

/-- Value of a most-significant-first digit list. -/
def parseDigits (cs : List Char) : Nat :=
  cs.foldl (fun a c => a * 10 + digitVal c) 0

lemma digitVal_jsDigitChar (m : Nat) (hm : m < 10) : digitVal (jsDigitChar m) = m := by
  interval_cases m <;> decide

lemma parse_natDigitsAux : ∀ fuel n, n < fuel → parseDigits (natDigitsAux fuel n) = n := by
  intro fuel
  induction fuel with
  | zero => intro n hn; omega
  | succ fuel ih =>
    intro n hn
    by_cases h10 : n < 10
    · rw [natDigitsAux, if_pos h10]
      show parseDigits [jsDigitChar n] = n
      simp [parseDigits, digitVal_jsDigitChar n h10]
    · rw [natDigitsAux, if_neg h10]
      have hdiv : n / 10 < fuel := by omega
      have hmod : n % 10 < 10 := Nat.mod_lt _ (by omega)
      unfold parseDigits
      rw [List.foldl_append]
      have hrec := ih (n / 10) hdiv
      unfold parseDigits at hrec
      rw [hrec]
      simp [digitVal_jsDigitChar _ hmod]
      omega

lemma natToString_inj : Function.Injective natToString := by
  intro a b h
  have hdata : natDigitsAux (a + 1) a = natDigitsAux (b + 1) b := congrArg String.data h
  have ha := parse_natDigitsAux (a + 1) a (by omega)
  have hb := parse_natDigitsAux (b + 1) b (by omega)
  rw [hdata] at ha
  omega

lemma append_natToString_inj (name : String) :
    Function.Injective (fun k => name ++ natToString k) := by
  intro a b h
  have hdata : name.data ++ (natToString a).data = name.data ++ (natToString b).data := by
    have := congrArg String.data h
    simpa [String.data_append] using this
  have h2 : (natToString a).data = (natToString b).data := List.append_cancel_left hdata
  exact natToString_inj (String.ext h2)

lemma probe_exists (name : String) (seen : List String) :
    ∃ k, k < seen.length + 1 ∧ (name ++ natToString (2 + k)) ∉ seen := by
  by_contra hall
  push_neg at hall
  have hsub : ((List.range (seen.length + 1)).map (fun k => name ++ natToString (2 + k)))
      ⊆ seen := by
    intro x hx
    obtain ⟨k, hk, rfl⟩ := List.mem_map.mp hx
    exact hall k (List.mem_range.mp hk)
  have hnodup : ((List.range (seen.length + 1)).map (fun k => name ++ natToString (2 + k))).Nodup := by
    refine List.Nodup.map ?_ (List.nodup_range _)
    intro a b hab
    have := append_natToString_inj name hab
    omega
  have := (List.subperm_of_subset hnodup hsub).length_le
  simp [List.length_map, List.length_range] at this

lemma probeLoop_spec (name : String) (seen : List String) :
    ∀ fuel counter,
      (∃ k, k < fuel ∧ (name ++ natToString (counter + k)) ∉ seen) →
      ∃ k, k < fuel ∧ probeLoop name seen fuel counter = name ++ natToString (counter + k)
        ∧ (name ++ natToString (counter + k)) ∉ seen
        ∧ ∀ j, j < k → (name ++ natToString (counter + j)) ∈ seen := by
  intro fuel
  induction fuel with
  | zero =>
    intro counter h
    obtain ⟨k, hk, _⟩ := h
    omega
  | succ fuel ih =>
    intro counter h
    by_cases hmem : (name ++ natToString counter) ∈ seen
    · have hex : ∃ k, k < fuel ∧ (name ++ natToString (counter + 1 + k)) ∉ seen := by
        obtain ⟨k, hk, hnot⟩ := h
        cases k with
        | zero => simp at hnot; exact absurd hmem hnot
        | succ k0 =>
          refine ⟨k0, by omega, ?_⟩
          have : counter + 1 + k0 = counter + (k0 + 1) := by omega
          rw [this]
          exact hnot
      obtain ⟨k, hk, heq, hnot, hmin⟩ := ih (counter + 1) hex
      refine ⟨k + 1, by omega, ?_, ?_, ?_⟩
      · rw [probeLoop]
        simp only [if_pos hmem]
        have : counter + (k + 1) = counter + 1 + k := by omega
        rw [this]
        exact heq
      · have : counter + (k + 1) = counter + 1 + k := by omega
        rw [this]
        exact hnot
      · intro j hj
        cases j with
        | zero => simpa using hmem
        | succ j0 =>
          have : counter + (j0 + 1) = counter + 1 + j0 := by omega
          rw [this]
          exact hmin j0 (by omega)
    · refine ⟨0, by omega, ?_, by simpa using hmem, by omega⟩
      rw [probeLoop]
      simp only [if_neg hmem]
      simp

lemma probeName_spec (name : String) (seen : List String) :
    ∃ m, 2 ≤ m ∧ probeName name seen = name ++ natToString m
      ∧ (name ++ natToString m) ∉ seen
      ∧ ∀ j, 2 ≤ j → j < m → (name ++ natToString j) ∈ seen := by
  obtain ⟨k, hk, hnot⟩ := probe_exists name seen
  have hex : ∃ k0, k0 < seen.length + 1 ∧ (name ++ natToString (2 + k0)) ∉ seen :=
    ⟨k, hk, hnot⟩
  obtain ⟨k0, hk0, heq, hnot0, hmin⟩ := probeLoop_spec name seen (seen.length + 1) 2 hex
  refine ⟨2 + k0, by omega, heq, hnot0, ?_⟩
  intro j h2 hj
  have := hmin (j - 2) (by omega)
  have harith : 2 + (j - 2) = j := by omega
  rwa [harith] at this

lemma probeName_not_mem (name : String) (seen : List String) :
    probeName name seen ∉ seen := by
  obtain ⟨m, _, heq, hnot, _⟩ := probeName_spec name seen
  rw [heq]
  exact hnot

lemma dedupGo_length : ∀ (es : List AnalyzedElement) (seen : List String),
    (dedupGo seen es).length = es.length := by
  intro es
  induction es with
  | nil => intro seen; rfl
  | cons e rest ih =>
    intro seen
    by_cases h : e.name ∈ seen
    · simp [dedupGo, if_pos h, ih]
    · simp [dedupGo, if_neg h, ih]

lemma dedupGo_fresh : ∀ (es : List AnalyzedElement) (seen : List String),
    ∀ e' ∈ dedupGo seen es, e'.name ∉ seen := by
  intro es
  induction es with
  | nil => intro seen e' h; exact absurd h (List.not_mem_nil e')
  | cons e rest ih =>
    intro seen e' hmem
    by_cases h : e.name ∈ seen
    · rw [dedupGo, if_pos h] at hmem
      rcases List.mem_cons.mp hmem with heq | htail
      · subst heq
        exact probeName_not_mem e.name seen
      · intro hbad
        exact ih (seen ++ [probeName e.name seen]) e' htail (List.mem_append_left _ hbad)
    · rw [dedupGo, if_neg h] at hmem
      rcases List.mem_cons.mp hmem with heq | htail
      · subst heq; exact h
      · intro hbad
        exact ih (seen ++ [e.name]) e' htail (List.mem_append_left _ hbad)

lemma dedupGo_nodup : ∀ (es : List AnalyzedElement) (seen : List String),
    ((dedupGo seen es).map (fun e => e.name)).Nodup := by
  intro es
  induction es with
  | nil => intro seen; exact List.nodup_nil
  | cons e rest ih =>
    intro seen
    by_cases h : e.name ∈ seen
    · rw [dedupGo, if_pos h]
      simp only [List.map_cons, List.nodup_cons]
      refine ⟨?_, ih _⟩
      intro hbad
      obtain ⟨e', he', hname⟩ := List.mem_map.mp hbad
      have := dedupGo_fresh rest (seen ++ [probeName e.name seen]) e' he'
      exact this (by rw [hname]; exact List.mem_append_right _ (List.mem_singleton.mpr rfl))
    · rw [dedupGo, if_neg h]
      simp only [List.map_cons, List.nodup_cons]
      refine ⟨?_, ih _⟩
      intro hbad
      obtain ⟨e', he', hname⟩ := List.mem_map.mp hbad
      have := dedupGo_fresh rest (seen ++ [e.name]) e' he'
      exact this (by rw [hname]; exact List.mem_append_right _ (List.mem_singleton.mpr rfl))

lemma dedupGo_get : ∀ (es : List AnalyzedElement) (seen : List String) (i : Nat)
    (e out : AnalyzedElement),
    es.get? i = some e → (dedupGo seen es).get? i = some out →
    ((e.name ∉ seen ++ (((dedupGo seen es).map (fun x => x.name)).take i) → out = e)
     ∧ (e.name ∈ seen ++ (((dedupGo seen es).map (fun x => x.name)).take i) →
         ∃ m, 2 ≤ m ∧ out = { e with name := e.name ++ natToString m }
           ∧ (e.name ++ natToString m) ∉ seen ++ (((dedupGo seen es).map (fun x => x.name)).take i)
           ∧ ∀ j, 2 ≤ j → j < m →
               (e.name ++ natToString j) ∈ seen ++ (((dedupGo seen es).map (fun x => x.name)).take i))) := by
  intro es
  induction es with
  | nil =>
    intro seen i e out he _
    exact absurd he (by simp)
  | cons e0 rest ih =>
    intro seen i e out he hout
    by_cases h : e0.name ∈ seen
    · rw [dedupGo, if_pos h] at hout ⊢
      cases i with
      | zero =>
        simp only [List.get?] at he hout
        cases Option.some.inj he
        cases Option.some.inj hout
        simp only [List.take_zero, List.append_nil]
        constructor
        · intro hnot; exact absurd h hnot
        · intro _
          obtain ⟨m, hm2, heq, hnot, hmin⟩ := probeName_spec e0.name seen
          exact ⟨m, hm2, by rw [← heq], hnot, hmin⟩
      | succ i0 =>
        simp only [List.get?] at he hout
        have := ih (seen ++ [probeName e0.name seen]) i0 e out he hout
        simp only [List.map_cons, List.take_succ_cons, List.append_assoc] at *
        convert this using 3
    · rw [dedupGo, if_neg h] at hout ⊢
      cases i with
      | zero =>
        simp only [List.get?] at he hout
        cases Option.some.inj he
        cases Option.some.inj hout
        simp only [List.take_zero, List.append_nil]
        constructor
        · intro _; trivial
        · intro hmem; exact absurd hmem h
      | succ i0 =>
        simp only [List.get?] at he hout
        have := ih (seen ++ [e0.name]) i0 e out he hout
        simp only [List.map_cons, List.take_succ_cons, List.append_assoc] at *
        convert this using 3

/-- C4 (amended): deduplication produces pairwise-distinct identifiers and
preserves length and order; an element whose name is not among the names
already claimed by earlier output elements (kept names and probe-renames
alike) keeps its name and all other fields unchanged; an element whose
name is already claimed is renamed to name + n for the least n ≥ 2 whose
candidate is unclaimed, probing n = 2, 3, … (collisions against
already-suffixed names included). -/
theorem dedup_spec (es : List AnalyzedElement) :
    ((deduplicateElements es).map (fun e => e.name)).Nodup
    ∧ (deduplicateElements es).length = es.length
    ∧ ∀ i e out, es.get? i = some e → (deduplicateElements es).get? i = some out →
        ((e.name ∉ (((deduplicateElements es).map (fun x => x.name)).take i) → out = e)
         ∧ (e.name ∈ (((deduplicateElements es).map (fun x => x.name)).take i) →
             ∃ m, 2 ≤ m ∧ out = { e with name := e.name ++ natToString m }
               ∧ (e.name ++ natToString m) ∉ (((deduplicateElements es).map (fun x => x.name)).take i)
               ∧ ∀ j, 2 ≤ j → j < m →
                   (e.name ++ natToString j) ∈ (((deduplicateElements es).map (fun x => x.name)).take i))) := by
  refine ⟨dedupGo_nodup es [], dedupGo_length es [], ?_⟩
  intro i e out he hout
  have := dedupGo_get es [] i e out he hout
  simpa using this

def demoInfo : ElementInfo :=
  { tagName := "div", role := none, label := none, text := none, placeholder := none,
    name := none, id := none, className := none, type := none, ariaLabel := none,
    testId := none }

def demoElem (n : String) : AnalyzedElement :=
  { name := n, locatorCode := "locator('div')", locatorType := LocatorType.locator,
    elementType := ElementType.other, originalInfo := demoInfo }

def demoBatch : List AnalyzedElement :=
  [demoElem "a", demoElem "a", demoElem "a2"]

/-- C4 counterexample: in the batch with names [a, a, a2] the element at
index 2 is the first element bearing the name a2 (no earlier input element
has it), yet deduplication renames it to a22, because the probe rename of
the second element already claimed a2.  The claim's "the first element
bearing any given name keeps that name unchanged" is false. -/
theorem dedup_first_bearer_cex :
    (demoBatch.map (fun e => e.name)) = ["a", "a", "a2"]
    ∧ ((demoBatch.take 2).map (fun e => e.name)) = ["a", "a"]
    ∧ ((deduplicateElements demoBatch).map (fun e => e.name)) = ["a", "a2", "a22"]
    ∧ ((deduplicateElements demoBatch).get? 2).map (fun e => e.name) ≠ some "a2" := by
  exact ⟨by decide, by decide, by decide, by decide⟩

/-- Witness for C4 (amended): the pointwise characterization applied at
index 1 of the demo batch, whose element collides on the name a and is
renamed to a2 = a + natToString 2. -/
theorem dedup_spec_witness :
    ∃ m, 2 ≤ m ∧ (demoElem "a2" : AnalyzedElement)
        = { demoElem "a" with name := (demoElem "a").name ++ natToString m }
      ∧ ((demoElem "a").name ++ natToString m)
          ∉ (((deduplicateElements demoBatch).map (fun x => x.name)).take 1)
      ∧ ∀ j, 2 ≤ j → j < m →
          ((demoElem "a").name ++ natToString j)
            ∈ (((deduplicateElements demoBatch).map (fun x => x.name)).take 1) :=
  ((dedup_spec demoBatch).2.2 1 (demoElem "a") (demoElem "a2") (by rfl) (by decide)).2
    (by decide)

namespace PageObjectDiff

lemma buildMap_go (es : List AnalyzedElement) :
    ∀ (m : List (String × AnalyzedElement)),
      (∀ e ∈ es, ∀ p ∈ m, p.1 ≠ e.name) →
      ((es.map (fun e => e.name)).Nodup) →
      es.foldl (fun m e => mapSet m e.name e) m = m ++ es.map (fun e => (e.name, e)) := by
  induction es with
  | nil => intro m _ _; simp
  | cons e rest ih =>
    intro m hdisj hnodup
    simp only [List.map_cons, List.nodup_cons] at hnodup
    have hany : (m.any (fun p => p.1 == e.name)) = false := by
      rw [List.any_eq_false]
      intro p hp
      simp only [beq_iff_eq]
      exact hdisj e (List.mem_cons_self e rest) p hp
    have hstep : mapSet m e.name e = m ++ [(e.name, e)] := by
      rw [mapSet, hany]
      simp
    have hdisj2 : ∀ e2 ∈ rest, ∀ p ∈ m ++ [(e.name, e)], p.1 ≠ e2.name := by
      intro e2 he2 p hp
      rcases List.mem_append.mp hp with hm | hone
      · exact hdisj e2 (List.mem_cons_of_mem e he2) p hm
      · have hp1 : p = (e.name, e) := List.mem_singleton.mp hone
        subst hp1
        show e.name ≠ e2.name
        intro hbad
        exact hnodup.1 (hbad ▸ List.mem_map.mpr ⟨e2, he2, rfl⟩)
    simp only [List.foldl_cons, hstep]
    rw [ih (m ++ [(e.name, e)]) hdisj2 hnodup.2, List.map_cons, List.append_assoc,
      List.singleton_append]

lemma buildMap_eq_of_nodup (es : List AnalyzedElement)
    (h : (es.map (fun e => e.name)).Nodup) :
    buildMap es = es.map (fun e => (e.name, e)) := by
  have := buildMap_go es [] (by intro e _ p hp; exact absurd hp (List.not_mem_nil p)) h
  simpa [buildMap] using this

lemma mapGet_map_eq (es : List AnalyzedElement) (k : String) :
    mapGet (es.map (fun e => (e.name, e))) k = es.find? (fun e => e.name == k) := by
  unfold mapGet
  rw [List.find?_map]
  simp only [Option.map_map]
  have : ((fun p : String × AnalyzedElement => p.1 == k) ∘ fun e : AnalyzedElement => (e.name, e))
      = fun e : AnalyzedElement => e.name == k := rfl
  rw [this]
  cases es.find? (fun e : AnalyzedElement => e.name == k) <;> rfl

lemma mapHas_map_eq (es : List AnalyzedElement) (k : String) :
    mapHas (es.map (fun e => (e.name, e))) k = es.any (fun e => e.name == k) := by
  unfold mapHas
  induction es with
  | nil => rfl
  | cons e rest ih => simp [List.any_cons, ih]

lemma find?_name_of_mem (es : List AnalyzedElement)
    (h : (es.map (fun e => e.name)).Nodup) (e : AnalyzedElement) (he : e ∈ es) :
    es.find? (fun x => x.name == e.name) = some e := by
  induction es with
  | nil => exact absurd he (List.not_mem_nil e)
  | cons a rest ih =>
    simp only [List.map_cons, List.nodup_cons] at h
    cases hpa : (a.name == e.name) with
    | true =>
      have haname : a.name = e.name := eq_of_beq hpa
      rcases List.mem_cons.mp he with rfl | htail
      · simp [List.find?_cons, hpa]
      · exact absurd (haname ▸ List.mem_map.mpr ⟨e, htail, rfl⟩) h.1
    | false =>
      have hne : e ≠ a := by
        intro hcontra
        subst hcontra
        simp at hpa
      rcases List.mem_cons.mp he with rfl | htail
      · exact absurd rfl hne
      · simp only [List.find?_cons, hpa]
        exact ih h.2 htail

lemma name_unique (es : List AnalyzedElement)
    (h : (es.map (fun e => e.name)).Nodup) (e1 e2 : AnalyzedElement)
    (h1 : e1 ∈ es) (h2 : e2 ∈ es) (heq : e1.name = e2.name) : e1 = e2 := by
  have f1 := find?_name_of_mem es h e1 h1
  have f2 := find?_name_of_mem es h e2 h2
  rw [heq] at f1
  rw [f1] at f2
  exact Option.some.inj f2

end PageObjectDiff

namespace PageObjectDiff

lemma compareLoop_added (oldM : List (String × AnalyzedElement)) :
    ∀ (l : List (String × AnalyzedElement)) (acc : DiffResult),
      (compareLoop oldM acc l).added
        = acc.added ++ (l.filter (fun p => (mapGet oldM p.1).isNone)).map (fun p => p.2) := by
  intro l
  induction l with
  | nil => intro acc; simp [compareLoop]
  | cons p rest ih =>
    intro acc
    obtain ⟨name, newEl⟩ := p
    cases hm : mapGet oldM name with
    | none =>
      simp only [compareLoop, hm, ih, List.filter_cons, Option.isNone_none]
      simp
    | some oldEl =>
      by_cases hc : (oldEl.locatorCode != newEl.locatorCode) = true
      · simp only [compareLoop, hm, if_pos hc, ih, List.filter_cons, Option.isNone_some]
        simp [hm]
      · simp only [compareLoop, hm, if_neg hc, ih, List.filter_cons, Option.isNone_some]
        simp [hm]

lemma compareLoop_removed (oldM : List (String × AnalyzedElement)) :
    ∀ (l : List (String × AnalyzedElement)) (acc : DiffResult),
      (compareLoop oldM acc l).removed = acc.removed := by
  intro l
  induction l with
  | nil => intro acc; simp [compareLoop]
  | cons p rest ih =>
    intro acc
    obtain ⟨name, newEl⟩ := p
    cases hm : mapGet oldM name with
    | none => simp only [compareLoop, hm, ih]
    | some oldEl =>
      by_cases hc : (oldEl.locatorCode != newEl.locatorCode) = true
      · simp only [compareLoop, hm, if_pos hc, ih]
      · simp only [compareLoop, hm, if_neg hc, ih]

lemma compareLoop_modified (oldM : List (String × AnalyzedElement)) :
    ∀ (l : List (String × AnalyzedElement)) (acc : DiffResult),
      (compareLoop oldM acc l).modified
        = acc.modified ++ l.filterMap (fun p =>
            match mapGet oldM p.1 with
            | none => none
            | some o => if o.locatorCode != p.2.locatorCode then some (o, p.2) else none) := by
  intro l
  induction l with
  | nil => intro acc; simp [compareLoop]
  | cons p rest ih =>
    intro acc
    obtain ⟨name, newEl⟩ := p
    cases hm : mapGet oldM name with
    | none =>
      simp [compareLoop, hm, ih, List.filterMap_cons]
    | some oldEl =>
      by_cases hc : (oldEl.locatorCode != newEl.locatorCode) = true
      · have hne : ¬ oldEl.locatorCode = newEl.locatorCode := by simpa using hc
        simp [compareLoop, hm, if_pos hc, ih, List.filterMap_cons, hne]
      · have heqc : oldEl.locatorCode = newEl.locatorCode := by simpa using hc
        simp [compareLoop, hm, if_neg hc, ih, List.filterMap_cons, heqc]

lemma compareLoop_unchanged (oldM : List (String × AnalyzedElement)) :
    ∀ (l : List (String × AnalyzedElement)) (acc : DiffResult),
      (compareLoop oldM acc l).unchanged
        = acc.unchanged ++ l.filterMap (fun p =>
            match mapGet oldM p.1 with
            | none => none
            | some o => if o.locatorCode != p.2.locatorCode then none else some p.2) := by
  intro l
  induction l with
  | nil => intro acc; simp [compareLoop]
  | cons p rest ih =>
    intro acc
    obtain ⟨name, newEl⟩ := p
    cases hm : mapGet oldM name with
    | none =>
      simp [compareLoop, hm, ih, List.filterMap_cons]
    | some oldEl =>
      by_cases hc : (oldEl.locatorCode != newEl.locatorCode) = true
      · have hne : ¬ oldEl.locatorCode = newEl.locatorCode := by simpa using hc
        simp [compareLoop, hm, if_pos hc, ih, List.filterMap_cons, hne]
      · have heqc : oldEl.locatorCode = newEl.locatorCode := by simpa using hc
        simp [compareLoop, hm, if_neg hc, ih, List.filterMap_cons, heqc]

end PageObjectDiff

namespace PageObjectDiff

lemma compare_added_eq (old new : PageObjectMetadata)
    (ho : (old.elements.map (fun e => e.name)).Nodup)
    (hn : (new.elements.map (fun e => e.name)).Nodup) :
    (compare old new).added
      = new.elements.filter
          (fun e => (old.elements.find? (fun o => o.name == e.name)).isNone) := by
  simp only [compare, compareLoop_added, buildMap_eq_of_nodup _ ho, buildMap_eq_of_nodup _ hn,
    List.nil_append, List.filter_map, List.map_map]
  rw [List.filter_congr (fun e _ => by rw [Function.comp_apply, mapGet_map_eq])]
  have hid : ((fun p : String × AnalyzedElement => p.2) ∘ fun e : AnalyzedElement => (e.name, e))
      = id := rfl
  rw [hid, List.map_id]

lemma compare_removed_eq (old new : PageObjectMetadata)
    (ho : (old.elements.map (fun e => e.name)).Nodup)
    (hn : (new.elements.map (fun e => e.name)).Nodup) :
    (compare old new).removed
      = old.elements.filter
          (fun o => !(new.elements.any (fun e => e.name == o.name))) := by
  simp only [compare, buildMap_eq_of_nodup _ ho, buildMap_eq_of_nodup _ hn,
    List.filter_map, List.map_map]
  rw [List.filter_congr (fun o _ => by rw [Function.comp_apply, mapHas_map_eq])]
  have hid : ((fun p : String × AnalyzedElement => p.2) ∘ fun e : AnalyzedElement => (e.name, e))
      = id := rfl
  rw [hid, List.map_id]

lemma compare_modified_eq (old new : PageObjectMetadata)
    (ho : (old.elements.map (fun e => e.name)).Nodup)
    (hn : (new.elements.map (fun e => e.name)).Nodup) :
    (compare old new).modified
      = new.elements.filterMap (fun e =>
          match old.elements.find? (fun o => o.name == e.name) with
          | none => none
          | some o => if o.locatorCode != e.locatorCode then some (o, e) else none) := by
  simp only [compare, compareLoop_modified, buildMap_eq_of_nodup _ ho, buildMap_eq_of_nodup _ hn,
    List.nil_append, List.filterMap_map]
  exact List.filterMap_congr (fun e _ => by rw [Function.comp_apply, mapGet_map_eq])

lemma compare_unchanged_eq (old new : PageObjectMetadata)
    (ho : (old.elements.map (fun e => e.name)).Nodup)
    (hn : (new.elements.map (fun e => e.name)).Nodup) :
    (compare old new).unchanged
      = new.elements.filterMap (fun e =>
          match old.elements.find? (fun o => o.name == e.name) with
          | none => none
          | some o => if o.locatorCode != e.locatorCode then none else some e) := by
  simp only [compare, compareLoop_unchanged, buildMap_eq_of_nodup _ ho, buildMap_eq_of_nodup _ hn,
    List.nil_append, List.filterMap_map]
  exact List.filterMap_congr (fun e _ => by rw [Function.comp_apply, mapGet_map_eq])

end PageObjectDiff

namespace PageObjectDiff

lemma mem_added_iff (old new : PageObjectMetadata)
    (ho : (old.elements.map (fun e => e.name)).Nodup)
    (hn : (new.elements.map (fun e => e.name)).Nodup) (x : AnalyzedElement) :
    x ∈ (compare old new).added
      ↔ x ∈ new.elements ∧ ∀ o ∈ old.elements, o.name ≠ x.name := by
  rw [compare_added_eq old new ho hn]
  simp [List.mem_filter, Option.isNone_iff_eq_none, List.find?_eq_none]

lemma mem_removed_iff (old new : PageObjectMetadata)
    (ho : (old.elements.map (fun e => e.name)).Nodup)
    (hn : (new.elements.map (fun e => e.name)).Nodup) (x : AnalyzedElement) :
    x ∈ (compare old new).removed
      ↔ x ∈ old.elements ∧ ∀ e ∈ new.elements, e.name ≠ x.name := by
  rw [compare_removed_eq old new ho hn]
  simp [List.mem_filter, List.any_eq_false]

lemma mem_modified_iff (old new : PageObjectMetadata)
    (ho : (old.elements.map (fun e => e.name)).Nodup)
    (hn : (new.elements.map (fun e => e.name)).Nodup)
    (p : AnalyzedElement × AnalyzedElement) :
    p ∈ (compare old new).modified
      ↔ p.1 ∈ old.elements ∧ p.2 ∈ new.elements ∧ p.1.name = p.2.name
          ∧ p.1.locatorCode ≠ p.2.locatorCode := by
  rw [compare_modified_eq old new ho hn]
  rw [List.mem_filterMap]
  constructor
  · rintro ⟨e, he, hfe⟩
    cases hfind : old.elements.find? (fun o => o.name == e.name) with
    | none => rw [hfind] at hfe; exact absurd hfe (by simp)
    | some o =>
      rw [hfind] at hfe
      have ho2 : o ∈ old.elements := List.mem_of_find?_eq_some hfind
      have hbeq := List.find?_some hfind
      have hfe2 : (if (o.locatorCode != e.locatorCode) = true then some (o, e) else none)
          = some p := hfe
      by_cases hc : (o.locatorCode != e.locatorCode) = true
      · rw [if_pos hc] at hfe2
        have hp : p = (o, e) := (Option.some.inj hfe2).symm
        subst hp
        exact ⟨ho2, he, eq_of_beq hbeq, by simpa using hc⟩
      · rw [if_neg hc] at hfe2
        exact absurd hfe2 (by simp)
  · rintro ⟨h1, h2, hname, hcode⟩
    refine ⟨p.2, h2, ?_⟩
    have hfind : old.elements.find? (fun o => o.name == p.2.name) = some p.1 := by
      have := find?_name_of_mem old.elements ho p.1 h1
      rwa [hname] at this
    rw [hfind]
    have hb : (p.1.locatorCode != p.2.locatorCode) = true := by simpa using hcode
    simp [hb]

lemma mem_unchanged_iff (old new : PageObjectMetadata)
    (ho : (old.elements.map (fun e => e.name)).Nodup)
    (hn : (new.elements.map (fun e => e.name)).Nodup) (x : AnalyzedElement) :
    x ∈ (compare old new).unchanged
      ↔ x ∈ new.elements
          ∧ ∃ o ∈ old.elements, o.name = x.name ∧ o.locatorCode = x.locatorCode := by
  rw [compare_unchanged_eq old new ho hn]
  rw [List.mem_filterMap]
  constructor
  · rintro ⟨e, he, hfe⟩
    cases hfind : old.elements.find? (fun o => o.name == e.name) with
    | none => rw [hfind] at hfe; exact absurd hfe (by simp)
    | some o =>
      rw [hfind] at hfe
      have ho2 : o ∈ old.elements := List.mem_of_find?_eq_some hfind
      have hbeq := List.find?_some hfind
      have hfe2 : (if (o.locatorCode != e.locatorCode) = true then none else some e)
          = some x := hfe
      by_cases hc : (o.locatorCode != e.locatorCode) = true
      · rw [if_pos hc] at hfe2
        exact absurd hfe2 (by simp)
      · rw [if_neg hc] at hfe2
        have hex : e = x := Option.some.inj hfe2
        subst hex
        exact ⟨he, o, ho2, eq_of_beq hbeq, by simpa using hc⟩
  · rintro ⟨hx, o, ho2, hname, hcode⟩
    refine ⟨x, hx, ?_⟩
    have hfind : old.elements.find? (fun z => z.name == x.name) = some o := by
      have := find?_name_of_mem old.elements ho o ho2
      rwa [hname] at this
    rw [hfind]
    have hb : (o.locatorCode != x.locatorCode) = false := by simp [hcode]
    simp [hb]

end PageObjectDiff

/-- C1: for metadata batches with pairwise-unique identifiers, `compare`
classifies every identifier appearing in old or new into exactly one of
added/removed/modified/unchanged, and `hasChanges` is true iff added,
removed, or modified is non-empty. -/
theorem diff_partition (old new : PageObjectMetadata)
    (ho : (old.elements.map (fun e => e.name)).Nodup)
    (hn : (new.elements.map (fun e => e.name)).Nodup) :
    (∀ n : String,
      ((∃ e ∈ old.elements, e.name = n) ∨ (∃ e ∈ new.elements, e.name = n))
        ↔ ((n ∈ (PageObjectDiff.compare old new).added.map (fun e => e.name)
              ∧ n ∉ (PageObjectDiff.compare old new).removed.map (fun e => e.name)
              ∧ n ∉ (PageObjectDiff.compare old new).modified.map (fun p => p.2.name)
              ∧ n ∉ (PageObjectDiff.compare old new).unchanged.map (fun e => e.name))
          ∨ (n ∉ (PageObjectDiff.compare old new).added.map (fun e => e.name)
              ∧ n ∈ (PageObjectDiff.compare old new).removed.map (fun e => e.name)
              ∧ n ∉ (PageObjectDiff.compare old new).modified.map (fun p => p.2.name)
              ∧ n ∉ (PageObjectDiff.compare old new).unchanged.map (fun e => e.name))
          ∨ (n ∉ (PageObjectDiff.compare old new).added.map (fun e => e.name)
              ∧ n ∉ (PageObjectDiff.compare old new).removed.map (fun e => e.name)
              ∧ n ∈ (PageObjectDiff.compare old new).modified.map (fun p => p.2.name)
              ∧ n ∉ (PageObjectDiff.compare old new).unchanged.map (fun e => e.name))
          ∨ (n ∉ (PageObjectDiff.compare old new).added.map (fun e => e.name)
              ∧ n ∉ (PageObjectDiff.compare old new).removed.map (fun e => e.name)
              ∧ n ∉ (PageObjectDiff.compare old new).modified.map (fun p => p.2.name)
              ∧ n ∈ (PageObjectDiff.compare old new).unchanged.map (fun e => e.name))))
    ∧ (PageObjectDiff.hasChanges (PageObjectDiff.compare old new) = true
        ↔ ((PageObjectDiff.compare old new).added ≠ []
            ∨ (PageObjectDiff.compare old new).removed ≠ []
            ∨ (PageObjectDiff.compare old new).modified ≠ [])) := by
  have hA : ∀ n : String,
      n ∈ (PageObjectDiff.compare old new).added.map (fun e => e.name)
        ↔ (∃ e ∈ new.elements, e.name = n) ∧ ¬(∃ o ∈ old.elements, o.name = n) := by
    intro n
    rw [List.mem_map]
    constructor
    · rintro ⟨x, hx, rfl⟩
      obtain ⟨hxnew, hnone⟩ := (PageObjectDiff.mem_added_iff old new ho hn x).mp hx
      exact ⟨⟨x, hxnew, rfl⟩, fun ⟨o, ho1, hon⟩ => hnone o ho1 hon⟩
    · rintro ⟨⟨e, he, rfl⟩, hnone⟩
      exact ⟨e, (PageObjectDiff.mem_added_iff old new ho hn e).mpr
        ⟨he, fun o ho1 hon => hnone ⟨o, ho1, hon⟩⟩, rfl⟩
  have hR : ∀ n : String,
      n ∈ (PageObjectDiff.compare old new).removed.map (fun e => e.name)
        ↔ (∃ o ∈ old.elements, o.name = n) ∧ ¬(∃ e ∈ new.elements, e.name = n) := by
    intro n
    rw [List.mem_map]
    constructor
    · rintro ⟨x, hx, rfl⟩
      obtain ⟨hxold, hnone⟩ := (PageObjectDiff.mem_removed_iff old new ho hn x).mp hx
      exact ⟨⟨x, hxold, rfl⟩, fun ⟨e, he1, hen⟩ => hnone e he1 hen⟩
    · rintro ⟨⟨o, ho1, rfl⟩, hnone⟩
      exact ⟨o, (PageObjectDiff.mem_removed_iff old new ho hn o).mpr
        ⟨ho1, fun e he1 hen => hnone ⟨e, he1, hen⟩⟩, rfl⟩
  have hM : ∀ n : String,
      n ∈ (PageObjectDiff.compare old new).modified.map (fun p => p.2.name)
        ↔ ∃ o ∈ old.elements, ∃ e ∈ new.elements,
            o.name = n ∧ e.name = n ∧ o.locatorCode ≠ e.locatorCode := by
    intro n
    rw [List.mem_map]
    constructor
    · rintro ⟨p, hp, rfl⟩
      obtain ⟨h1, h2, hname, hcode⟩ := (PageObjectDiff.mem_modified_iff old new ho hn p).mp hp
      exact ⟨p.1, h1, p.2, h2, hname, rfl, hcode⟩
    · rintro ⟨o, ho1, e, he1, hon, rfl, hcode⟩
      exact ⟨(o, e), (PageObjectDiff.mem_modified_iff old new ho hn (o, e)).mpr
        ⟨ho1, he1, hon, hcode⟩, rfl⟩
  have hU : ∀ n : String,
      n ∈ (PageObjectDiff.compare old new).unchanged.map (fun e => e.name)
        ↔ ∃ o ∈ old.elements, ∃ e ∈ new.elements,
            o.name = n ∧ e.name = n ∧ o.locatorCode = e.locatorCode := by
    intro n
    rw [List.mem_map]
    constructor
    · rintro ⟨x, hx, rfl⟩
      obtain ⟨hxnew, o, ho1, hon, hcode⟩ := (PageObjectDiff.mem_unchanged_iff old new ho hn x).mp hx
      exact ⟨o, ho1, x, hxnew, hon, rfl, hcode⟩
    · rintro ⟨o, ho1, e, he1, hon, rfl, hcode⟩
      exact ⟨e, (PageObjectDiff.mem_unchanged_iff old new ho hn e).mpr
        ⟨he1, o, ho1, hon, hcode⟩, rfl⟩
  constructor
  · intro n
    constructor
    · intro hun
      by_cases hBn : ∃ e ∈ new.elements, e.name = n
      · by_cases hAn : ∃ o ∈ old.elements, o.name = n
        · obtain ⟨o, ho1, hon⟩ := hAn
          obtain ⟨e, he1, hen⟩ := hBn
          by_cases hc : o.locatorCode = e.locatorCode
          · refine Or.inr (Or.inr (Or.inr ⟨?_, ?_, ?_, ?_⟩))
            · rw [hA]
              rintro ⟨-, hno⟩
              exact hno ⟨o, ho1, hon⟩
            · rw [hR]
              rintro ⟨-, hno⟩
              exact hno ⟨e, he1, hen⟩
            · rw [hM]
              rintro ⟨o', ho1', e', he1', hon', hen', hcode'⟩
              have : o' = o := PageObjectDiff.name_unique old.elements ho o' o ho1' ho1
                (by rw [hon', hon])
              subst this
              have : e' = e := PageObjectDiff.name_unique new.elements hn e' e he1' he1
                (by rw [hen', hen])
              subst this
              exact hcode' hc
            · rw [hU]
              exact ⟨o, ho1, e, he1, hon, hen, hc⟩
          · refine Or.inr (Or.inr (Or.inl ⟨?_, ?_, ?_, ?_⟩))
            · rw [hA]
              rintro ⟨-, hno⟩
              exact hno ⟨o, ho1, hon⟩
            · rw [hR]
              rintro ⟨-, hno⟩
              exact hno ⟨e, he1, hen⟩
            · rw [hM]
              exact ⟨o, ho1, e, he1, hon, hen, hc⟩
            · rw [hU]
              rintro ⟨o', ho1', e', he1', hon', hen', hcode'⟩
              have : o' = o := PageObjectDiff.name_unique old.elements ho o' o ho1' ho1
                (by rw [hon', hon])
              subst this
              have : e' = e := PageObjectDiff.name_unique new.elements hn e' e he1' he1
                (by rw [hen', hen])
              subst this
              exact hc hcode'
        · refine Or.inl ⟨?_, ?_, ?_, ?_⟩
          · rw [hA]
            exact ⟨hBn, hAn⟩
          · rw [hR]
            rintro ⟨hsome, -⟩
            exact hAn hsome
          · rw [hM]
            rintro ⟨o', ho1', e', he1', hon', -, -⟩
            exact hAn ⟨o', ho1', hon'⟩
          · rw [hU]
            rintro ⟨o', ho1', e', he1', hon', -, -⟩
            exact hAn ⟨o', ho1', hon'⟩
      · have hAn : ∃ o ∈ old.elements, o.name = n := by
          rcases hun with h | h
          · exact h
          · exact absurd h hBn
        refine Or.inr (Or.inl ⟨?_, ?_, ?_, ?_⟩)
        · rw [hA]
          rintro ⟨hsome, -⟩
          exact hBn hsome
        · rw [hR]
          exact ⟨hAn, hBn⟩
        · rw [hM]
          rintro ⟨o', ho1', e', he1', -, hen', -⟩
          exact hBn ⟨e', he1', hen'⟩
        · rw [hU]
          rintro ⟨o', ho1', e', he1', -, hen', -⟩
          exact hBn ⟨e', he1', hen'⟩
    · intro hbuckets
      rcases hbuckets with ⟨h1, -, -, -⟩ | ⟨-, h1, -, -⟩ | ⟨-, -, h1, -⟩ | ⟨-, -, -, h1⟩
      · exact Or.inr ((hA n).mp h1).1
      · exact Or.inl ((hR n).mp h1).1
      · obtain ⟨o, ho1, e, he1, hon, -, -⟩ := (hM n).mp h1
        exact Or.inl ⟨o, ho1, hon⟩
      · obtain ⟨o, ho1, e, he1, hon, -, -⟩ := (hU n).mp h1
        exact Or.inl ⟨o, ho1, hon⟩
  · simp [PageObjectDiff.hasChanges, List.length_pos, or_assoc]

/-- C7: for an identifier present in both batches (with unique identifiers
per batch), the diff classifies it as modified iff the two elements'
locator expressions differ, and as unchanged iff they are identical;
no other element metadata is compared. -/
theorem modified_iff_locator (old new : PageObjectMetadata)
    (ho : (old.elements.map (fun e => e.name)).Nodup)
    (hn : (new.elements.map (fun e => e.name)).Nodup)
    (e1 e2 : AnalyzedElement) (h1 : e1 ∈ old.elements) (h2 : e2 ∈ new.elements)
    (heq : e1.name = e2.name) :
    ((e1, e2) ∈ (PageObjectDiff.compare old new).modified
      ↔ e1.locatorCode ≠ e2.locatorCode)
    ∧ (e2 ∈ (PageObjectDiff.compare old new).unchanged
      ↔ e1.locatorCode = e2.locatorCode) := by
  constructor
  · rw [PageObjectDiff.mem_modified_iff old new ho hn (e1, e2)]
    constructor
    · rintro ⟨-, -, -, hcode⟩
      exact hcode
    · intro hcode
      exact ⟨h1, h2, heq, hcode⟩
  · rw [PageObjectDiff.mem_unchanged_iff old new ho hn e2]
    constructor
    · rintro ⟨-, o, ho1, hon, hcode⟩
      have : o = e1 := PageObjectDiff.name_unique old.elements ho o e1 ho1 h1
        (by rw [hon, heq])
      subst this
      exact hcode
    · intro hcode
      exact ⟨h2, e1, h1, heq, hcode⟩

namespace PageObjectDiff

lemma mem_addedNames_iff (old new : PageObjectMetadata)
    (ho : (old.elements.map (fun e => e.name)).Nodup)
    (hn : (new.elements.map (fun e => e.name)).Nodup) (n : String) :
    n ∈ (compare old new).added.map (fun e => e.name)
      ↔ (∃ e ∈ new.elements, e.name = n) ∧ ¬(∃ o ∈ old.elements, o.name = n) := by
  rw [List.mem_map]
  constructor
  · rintro ⟨x, hx, rfl⟩
    obtain ⟨hxnew, hnone⟩ := (mem_added_iff old new ho hn x).mp hx
    exact ⟨⟨x, hxnew, rfl⟩, fun ⟨o, ho1, hon⟩ => hnone o ho1 hon⟩
  · rintro ⟨⟨e, he, rfl⟩, hnone⟩
    exact ⟨e, (mem_added_iff old new ho hn e).mpr
      ⟨he, fun o ho1 hon => hnone ⟨o, ho1, hon⟩⟩, rfl⟩

lemma mem_removedNames_iff (old new : PageObjectMetadata)
    (ho : (old.elements.map (fun e => e.name)).Nodup)
    (hn : (new.elements.map (fun e => e.name)).Nodup) (n : String) :
    n ∈ (compare old new).removed.map (fun e => e.name)
      ↔ (∃ o ∈ old.elements, o.name = n) ∧ ¬(∃ e ∈ new.elements, e.name = n) := by
  rw [List.mem_map]
  constructor
  · rintro ⟨x, hx, rfl⟩
    obtain ⟨hxold, hnone⟩ := (mem_removed_iff old new ho hn x).mp hx
    exact ⟨⟨x, hxold, rfl⟩, fun ⟨e, he1, hen⟩ => hnone e he1 hen⟩
  · rintro ⟨⟨o, ho1, rfl⟩, hnone⟩
    exact ⟨o, (mem_removed_iff old new ho hn o).mpr
      ⟨ho1, fun e he1 hen => hnone ⟨e, he1, hen⟩⟩, rfl⟩

lemma mem_unchangedNames_iff (old new : PageObjectMetadata)
    (ho : (old.elements.map (fun e => e.name)).Nodup)
    (hn : (new.elements.map (fun e => e.name)).Nodup) (n : String) :
    n ∈ (compare old new).unchanged.map (fun e => e.name)
      ↔ ∃ o ∈ old.elements, ∃ e ∈ new.elements,
          o.name = n ∧ e.name = n ∧ o.locatorCode = e.locatorCode := by
  rw [List.mem_map]
  constructor
  · rintro ⟨x, hx, rfl⟩
    obtain ⟨hxnew, o, ho1, hon, hcode⟩ := (mem_unchanged_iff old new ho hn x).mp hx
    exact ⟨o, ho1, x, hxnew, hon, rfl, hcode⟩
  · rintro ⟨o, ho1, e, he1, hon, rfl, hcode⟩
    exact ⟨e, (mem_unchanged_iff old new ho hn e).mpr ⟨he1, o, ho1, hon, hcode⟩, rfl⟩

end PageObjectDiff

/-- C10: swapping the arguments of `compare` swaps added and removed,
swaps the components of each modified pair, and preserves the set of
unchanged identifiers. -/
theorem compare_swap (a b : PageObjectMetadata)
    (ha : (a.elements.map (fun e => e.name)).Nodup)
    (hb : (b.elements.map (fun e => e.name)).Nodup) :
    (∀ n : String,
        n ∈ (PageObjectDiff.compare a b).added.map (fun e => e.name)
          ↔ n ∈ (PageObjectDiff.compare b a).removed.map (fun e => e.name))
    ∧ (∀ n : String,
        n ∈ (PageObjectDiff.compare a b).removed.map (fun e => e.name)
          ↔ n ∈ (PageObjectDiff.compare b a).added.map (fun e => e.name))
    ∧ (∀ p : AnalyzedElement × AnalyzedElement,
        p ∈ (PageObjectDiff.compare a b).modified
          ↔ (p.2, p.1) ∈ (PageObjectDiff.compare b a).modified)
    ∧ (∀ n : String,
        n ∈ (PageObjectDiff.compare a b).unchanged.map (fun e => e.name)
          ↔ n ∈ (PageObjectDiff.compare b a).unchanged.map (fun e => e.name)) := by
  refine ⟨?_, ?_, ?_, ?_⟩
  · intro n
    rw [PageObjectDiff.mem_addedNames_iff a b ha hb n,
      PageObjectDiff.mem_removedNames_iff b a hb ha n]
  · intro n
    rw [PageObjectDiff.mem_removedNames_iff a b ha hb n,
      PageObjectDiff.mem_addedNames_iff b a hb ha n]
  · intro p
    rw [PageObjectDiff.mem_modified_iff a b ha hb p,
      PageObjectDiff.mem_modified_iff b a hb ha (p.2, p.1)]
    constructor
    · rintro ⟨x1, x2, x3, x4⟩
      exact ⟨x2, x1, x3.symm, Ne.symm x4⟩
    · rintro ⟨x1, x2, x3, x4⟩
      exact ⟨x2, x1, x3.symm, Ne.symm x4⟩
  · intro n
    rw [PageObjectDiff.mem_unchangedNames_iff a b ha hb n,
      PageObjectDiff.mem_unchangedNames_iff b a hb ha n]
    constructor
    · rintro ⟨o, ho1, e, he1, hon, hen, hcode⟩
      exact ⟨e, he1, o, ho1, hen, hon, hcode.symm⟩
    · rintro ⟨o, ho1, e, he1, hon, hen, hcode⟩
      exact ⟨e, he1, o, ho1, hen, hon, hcode.symm⟩

def sampleInfo : ElementInfo :=
  { tagName := "input", role := none, label := some "Email", text := none,
    placeholder := none, name := none, id := none, className := none,
    type := none, ariaLabel := none, testId := none }

def oldEmailElem : AnalyzedElement :=
  { name := "emailInput", locatorCode := "getByLabel('Email')",
    locatorType := LocatorType.getByLabel, elementType := ElementType.input,
    originalInfo := sampleInfo }

def newEmailElem : AnalyzedElement :=
  { name := "emailInput", locatorCode := "getByPlaceholder('Email')",
    locatorType := LocatorType.getByPlaceholder, elementType := ElementType.input,
    originalInfo := sampleInfo }

def newPhoneElem : AnalyzedElement :=
  { name := "phoneInput", locatorCode := "locator('#phone')",
    locatorType := LocatorType.locator, elementType := ElementType.input,
    originalInfo := sampleInfo }

def oldMeta : PageObjectMetadata :=
  { url := "https://example.com/login", pageName := "Login",
    generatedAt := "2024-01-01T00:00:00.000Z", elementCount := 1,
    elements := [oldEmailElem], screenshotPath := none }

def newMeta : PageObjectMetadata :=
  { url := "https://example.com/login", pageName := "Login",
    generatedAt := "2024-02-01T00:00:00.000Z", elementCount := 2,
    elements := [newEmailElem, newPhoneElem], screenshotPath := none }

/-- Witness for C1 at a concrete pair of batches. -/
theorem diff_partition_witness :
    PageObjectDiff.hasChanges (PageObjectDiff.compare oldMeta newMeta) = true
      ↔ ((PageObjectDiff.compare oldMeta newMeta).added ≠ []
          ∨ (PageObjectDiff.compare oldMeta newMeta).removed ≠ []
          ∨ (PageObjectDiff.compare oldMeta newMeta).modified ≠ []) :=
  (diff_partition oldMeta newMeta (by decide) (by decide)).2

/-- Witness for C7 at the concrete emailInput pair whose locator changed. -/
theorem modified_iff_locator_witness :
    ((oldEmailElem, newEmailElem) ∈ (PageObjectDiff.compare oldMeta newMeta).modified
      ↔ oldEmailElem.locatorCode ≠ newEmailElem.locatorCode) :=
  (modified_iff_locator oldMeta newMeta (by decide) (by decide) oldEmailElem newEmailElem
    (by decide) (by decide) (by decide)).1

/-- Witness for C10 at the concrete emailInput pair. -/
theorem compare_swap_witness :
    ((oldEmailElem, newEmailElem) ∈ (PageObjectDiff.compare oldMeta newMeta).modified
      ↔ (newEmailElem, oldEmailElem) ∈ (PageObjectDiff.compare newMeta oldMeta).modified) :=
  (compare_swap oldMeta newMeta (by decide) (by decide)).2.2.1 (oldEmailElem, newEmailElem)

/-- Split a character list at newlines (the final chunk carries no
newline; a trailing newline yields a final empty chunk). -/
def lines : List Char → List (List Char)
  | [] => [[]]
  | c :: cs =>
    let r := lines cs
    if c = '\n' then [] :: r
    else
      match r with
      | [] => [[c]]
      | l :: ls => (c :: l) :: ls

/-- Recognize a field-declaration line of the generated class
(`  readonly NAME: Locator;`) and extract NAME. -/
def declLineOf (l : List Char) : Option String :=
  if ("  readonly ").data.isPrefixOf l && (": Locator;").data.isSuffixOf l
      && decide (21 ≤ l.length) then
    some (String.mk ((l.drop 11).take (l.length - 21)))
  else none

/-- The names declared as `readonly … : Locator` fields of a generated
artifact, in order of appearance. -/
def declNames (s : String) : List String :=
  (lines s.data).filterMap declLineOf

lemma lines_ne_nil (cs : List Char) : lines cs ≠ [] := by
  cases cs with
  | nil => simp [lines]
  | cons c rest =>
    simp only [lines]
    by_cases h : c = '\n'
    · simp [h]
    · simp only [if_neg h]
      cases lines rest with
      | nil => simp
      | cons l ls => simp

lemma lines_append_nl (l rest : List Char) (h : '\n' ∉ l) :
    lines (l ++ '\n' :: rest) = l :: lines rest := by
  induction l with
  | nil => simp [lines]
  | cons c cs ih =>
    have hc : c ≠ '\n' := fun hcc => h (hcc ▸ List.mem_cons_self c cs)
    have hcs : '\n' ∉ cs := fun hx => h (List.mem_cons_of_mem c hx)
    simp only [List.cons_append, lines]
    have ih2 : lines (cs.append ('\n' :: rest)) = cs :: lines rest := ih hcs
    rw [ih2, if_neg hc]

lemma lines_chunks (ls : List (List Char)) (rest : List Char)
    (h : ∀ l ∈ ls, '\n' ∉ l) :
    lines ((ls.map (fun l => l ++ ['\n'])).flatten ++ rest) = ls ++ lines rest := by
  induction ls with
  | nil => simp
  | cons l ls2 ih =>
    have hl : '\n' ∉ l := h l (List.mem_cons_self l ls2)
    have hrest : ∀ x ∈ ls2, '\n' ∉ x := fun x hx => h x (List.mem_cons_of_mem l hx)
    simp only [List.map_cons, List.flatten_cons, List.append_assoc, List.singleton_append,
      List.cons_append]
    rw [lines_append_nl l _ hl, List.nil_append, ih hrest]

lemma foldl_append_data {α : Type} (g : α → String) (l : List α) :
    ∀ (init : String),
      (l.foldl (fun acc e => acc ++ g e) init).data
        = init.data ++ ((l.map (fun e => (g e).data)).flatten) := by
  induction l with
  | nil => intro init; simp
  | cons e rest ih =>
    intro init
    simp only [List.foldl_cons, ih, String.data_append, List.map_cons, List.flatten_cons,
      List.append_assoc]

lemma char_toNat_ofNat (n : Nat) (h : n < 55296) : (Char.ofNat n).toNat = n := by
  rw [Char.ofNat, dif_pos (Or.inl h)]
  rfl

lemma toLower_ne_nl (c : Char) (h : c ≠ '\n') : Char.toLower c ≠ '\n' := by
  unfold Char.toLower
  show (if c.toNat ≥ 65 ∧ c.toNat ≤ 90 then Char.ofNat (c.toNat + 32) else c) ≠ '\n'
  by_cases hb : c.toNat ≥ 65 ∧ c.toNat ≤ 90
  · rw [if_pos hb]
    intro hbad
    have h2 := congrArg Char.toNat hbad
    rw [char_toNat_ofNat (c.toNat + 32) (by omega)] at h2
    have h10 : ('\n').toNat = 10 := by decide
    omega
  · rw [if_neg hb]
    exact h

lemma toUpper_ne_nl (c : Char) (h : c ≠ '\n') : Char.toUpper c ≠ '\n' := by
  unfold Char.toUpper
  show (if c.toNat ≥ 97 ∧ c.toNat ≤ 122 then Char.ofNat (c.toNat - 32) else c) ≠ '\n'
  by_cases hb : c.toNat ≥ 97 ∧ c.toNat ≤ 122
  · rw [if_pos hb]
    intro hbad
    have h2 := congrArg Char.toNat hbad
    rw [char_toNat_ofNat (c.toNat - 32) (by omega)] at h2
    have h10 : ('\n').toNat = 10 := by decide
    omega
  · rw [if_neg hb]
    exact h

lemma splitWordsAux_no_ws : ∀ (fuel : Nat) (cs : List Char),
    ∀ w ∈ splitWordsAux fuel cs, ∀ c ∈ w, ¬ c.isWhitespace = true := by
  intro fuel
  induction fuel with
  | zero => intro cs w hw; exact absurd hw (by simp [splitWordsAux])
  | succ fuel ih =>
    intro cs w hw c hc
    cases cs with
    | nil => exact absurd hw (by simp [splitWordsAux])
    | cons c0 rest =>
      by_cases h0 : c0.isWhitespace
      · rw [splitWordsAux, if_pos h0] at hw
        exact ih rest w hw c hc
      · rw [splitWordsAux, if_neg h0] at hw
        rcases List.mem_cons.mp hw with rfl | htail
        · rcases List.mem_cons.mp hc with rfl | htw
          · exact h0
          · have := List.mem_takeWhile_imp htw
            simpa using this
        · exact ih _ w htail c hc

lemma toCamelCase_no_nl (s : String) : '\n' ∉ (toCamelCase s).data := by
  show '\n' ∉ camelWords (splitWords (s.data.map cleanChar))
  have hwords := splitWordsAux_no_ws (s.data.map cleanChar).length (s.data.map cleanChar)
  generalize hws : splitWords (s.data.map cleanChar) = ws at *
  rw [splitWords] at hws
  rw [hws] at hwords
  clear hws
  cases ws with
  | nil => simp [camelWords]
  | cons w rest =>
    intro hmem
    rw [camelWords] at hmem
    rcases List.mem_append.mp hmem with hm | hm
    · obtain ⟨c, hcw, hcl⟩ := List.mem_map.mp hm
      have hnws := hwords w (List.mem_cons_self w rest) c hcw
      have : c ≠ '\n' := by
        intro hcc
        subst hcc
        exact hnws (by decide)
      exact toLower_ne_nl c this hcl
    · obtain ⟨v', hv', hmv⟩ := List.mem_flatten.mp hm
      obtain ⟨v, hv, rfl⟩ := List.mem_map.mp hv'
      have hvw := hwords v (List.mem_cons_of_mem w hv)
      cases hlw : lowerWord v with
      | nil => rw [hlw] at hmv; exact absurd hmv (by simp [capitalize])
      | cons d ds =>
        rw [hlw] at hmv
        rw [capitalize] at hmv
        obtain ⟨d0, hd0, hld⟩ : ∃ d0 ∈ v, Char.toLower d0 = d := by
          have : d ∈ lowerWord v := by rw [hlw]; exact List.mem_cons_self d ds
          exact List.mem_map.mp this
        rcases List.mem_cons.mp hmv with heq | htl
        · have hd0nl : d0 ≠ '\n' := by
            intro hcc
            subst hcc
            exact hvw '\n' hd0 (by decide)
          have hdnl : d ≠ '\n' := hld ▸ toLower_ne_nl d0 hd0nl
          exact toUpper_ne_nl d hdnl heq.symm
        · have : '\n' ∈ lowerWord v := by rw [hlw]; exact List.mem_cons_of_mem d htl
          obtain ⟨c, hcw, hcl⟩ := List.mem_map.mp this
          have hnws := hvw c hcw
          have : c ≠ '\n' := by
            intro hcc
            subst hcc
            exact hnws (by decide)
          exact toLower_ne_nl c this hcl

lemma toPascalCase_no_nl (s : String) : '\n' ∉ (toPascalCase s).data := by
  show '\n' ∉ capitalize (toCamelCase s).data
  cases hc : (toCamelCase s).data with
  | nil => simp [capitalize]
  | cons d ds =>
    rw [capitalize]
    intro hmem
    rcases List.mem_cons.mp hmem with heq | htl
    · have hdnl : d ≠ '\n' := by
        intro hcc
        have : '\n' ∈ (toCamelCase s).data := by rw [hc, hcc]; exact List.mem_cons_self _ _
        exact toCamelCase_no_nl s this
      exact toUpper_ne_nl d hdnl heq.symm
    · have : '\n' ∈ (toCamelCase s).data := by rw [hc]; exact List.mem_cons_of_mem d htl
      exact toCamelCase_no_nl s this

lemma jsDigitChar_ne_nl (n : Nat) : jsDigitChar n ≠ '\n' := by
  unfold jsDigitChar
  split <;> first | decide | skip
  split <;> first | decide | skip
  split <;> first | decide | skip
  split <;> first | decide | skip
  split <;> first | decide | skip
  split <;> first | decide | skip
  split <;> first | decide | skip
  split <;> first | decide | skip
  split <;> first | decide | skip
  split <;> decide

lemma natDigitsAux_no_nl : ∀ (fuel n : Nat), '\n' ∉ natDigitsAux fuel n := by
  intro fuel
  induction fuel with
  | zero => intro n; simp [natDigitsAux]
  | succ fuel ih =>
    intro n
    rw [natDigitsAux]
    by_cases h : n < 10
    · rw [if_pos h]
      intro hmem
      exact jsDigitChar_ne_nl n (List.mem_singleton.mp hmem).symm
    · rw [if_neg h]
      intro hmem
      rcases List.mem_append.mp hmem with hm | hm
      · exact ih (n / 10) hm
      · exact jsDigitChar_ne_nl (n % 10) ((List.mem_singleton.mp hm).symm)

lemma natToString_no_nl (n : Nat) : '\n' ∉ (natToString n).data :=
  natDigitsAux_no_nl (n + 1) n

lemma dedupGo_mem_origin : ∀ (es : List AnalyzedElement) (seen : List String),
    ∀ e' ∈ dedupGo seen es, ∃ e ∈ es,
      e'.locatorCode = e.locatorCode ∧ e'.elementType = e.elementType
        ∧ (e'.name = e.name ∨ ∃ m : Nat, e'.name = e.name ++ natToString m) := by
  intro es
  induction es with
  | nil => intro seen e' h; exact absurd h (List.not_mem_nil e')
  | cons e rest ih =>
    intro seen e' hmem
    by_cases h : e.name ∈ seen
    · rw [dedupGo, if_pos h] at hmem
      rcases List.mem_cons.mp hmem with rfl | htail
      · refine ⟨e, List.mem_cons_self e rest, rfl, rfl, Or.inr ?_⟩
        obtain ⟨m, -, heq, -, -⟩ := probeName_spec e.name seen
        exact ⟨m, heq⟩
      · obtain ⟨e0, he0, hrest⟩ := ih _ e' htail
        exact ⟨e0, List.mem_cons_of_mem e he0, hrest⟩
    · rw [dedupGo, if_neg h] at hmem
      rcases List.mem_cons.mp hmem with heq | htail
      · exact ⟨e, List.mem_cons_self e rest, by rw [heq], by rw [heq], Or.inl (by rw [heq])⟩
      · obtain ⟨e0, he0, hrest⟩ := ih _ e' htail
        exact ⟨e0, List.mem_cons_of_mem e he0, hrest⟩

lemma dedup_clean (es : List AnalyzedElement)
    (h : ∀ e ∈ es, ('\n' ∉ e.name.data) ∧ ('\n' ∉ e.locatorCode.data)) :
    ∀ e' ∈ deduplicateElements es, ('\n' ∉ e'.name.data) ∧ ('\n' ∉ e'.locatorCode.data) := by
  intro e' he'
  obtain ⟨e, he, hcode, -, hname⟩ := dedupGo_mem_origin es [] e' he'
  refine ⟨?_, by rw [hcode]; exact (h e he).2⟩
  rcases hname with heq | ⟨m, heq⟩
  · rw [heq]; exact (h e he).1
  · rw [heq, String.data_append]
    intro hmem
    rcases List.mem_append.mp hmem with hm | hm
    · exact (h e he).1 hm
    · exact natToString_no_nl m hm

/-- The individual text lines of the helper-method section, per category. -/
def helperLines (es : List AnalyzedElement) : List (List Char) :=
  ((es.filter (fun e => e.elementType == ElementType.button)).map (fun b =>
    [[], ("  async click").data ++ (toPascalCase (stripEnd b.name "Button")).data
        ++ ("(): Promise<void> \x7b").data,
     ("    await this.").data ++ b.name.data ++ (".click();").data, ("  \x7d").data])).flatten
  ++ ((es.filter (fun e => e.elementType == ElementType.input
        || e.elementType == ElementType.textarea)).map (fun i =>
    [[], ("  async fill").data ++ (toPascalCase (stripInputEnd i.name)).data
        ++ ("(value: string): Promise<void> \x7b").data,
     ("    await this.").data ++ i.name.data ++ (".fill(value);").data, ("  \x7d").data])).flatten
  ++ ((es.filter (fun e => e.elementType == ElementType.select)).map (fun sel =>
    [[], ("  async select").data ++ (toPascalCase (stripEnd sel.name "Select")).data
        ++ ("(value: string): Promise<void> \x7b").data,
     ("    await this.").data ++ sel.name.data ++ (".selectOption(value);").data,
     ("  \x7d").data])).flatten
  ++ ((es.filter (fun e => e.elementType == ElementType.checkbox)).map (fun cb =>
    [[], ("  async check").data ++ (toPascalCase (stripEnd cb.name "Checkbox")).data
        ++ ("(): Promise<void> \x7b").data,
     ("    await this.").data ++ cb.name.data ++ (".check();").data, ("  \x7d").data,
     [], ("  async uncheck").data ++ (toPascalCase (stripEnd cb.name "Checkbox")).data
        ++ ("(): Promise<void> \x7b").data,
     ("    await this.").data ++ cb.name.data ++ (".uncheck();").data, ("  \x7d").data])).flatten
  ++ ((es.filter (fun e => e.elementType == ElementType.link)).map (fun lk =>
    [[], ("  async click").data ++ (toPascalCase (stripEnd lk.name "Link")).data
        ++ ("Link(): Promise<void> \x7b").data,
     ("    await this.").data ++ lk.name.data ++ (".click();").data, ("  \x7d").data])).flatten

lemma flatten_chunks_eq {α : Type} (chunk : α → List (List Char)) (l : List α) :
    (l.map (fun b => ((chunk b).map (fun x => x ++ ['\n'])).flatten)).flatten
      = ((l.map chunk).flatten.map (fun x => x ++ ['\n'])).flatten := by
  induction l with
  | nil => simp
  | cons a rest ih => simp [List.map_append, List.flatten_append, ih]

lemma click_chunk_data (p n : String) :
    ("\n  async click" ++ p ++ "(): Promise<void> \x7b\n    await this." ++ n
      ++ ".click();\n  \x7d\n").data
      = (([[], ("  async click").data ++ p.data ++ ("(): Promise<void> \x7b").data,
          ("    await this.").data ++ n.data ++ (".click();").data,
          ("  \x7d").data]).map (fun x => x ++ ['\n'])).flatten := by
  have e1 : ("\n  async click").data = '\n' :: ("  async click").data := by decide
  have e2 : ("(): Promise<void> \x7b\n    await this.").data
      = ("(): Promise<void> \x7b").data ++ '\n' :: ("    await this.").data := by decide
  have e3 : (".click();\n  \x7d\n").data
      = (".click();").data ++ '\n' :: (("  \x7d").data ++ ['\n']) := by decide
  simp only [String.data_append, e1, e2, e3, List.map_cons, List.map_nil, List.flatten_cons,
    List.flatten_nil, List.nil_append, List.append_nil, List.cons_append, List.append_assoc]

lemma fill_chunk_data (p n : String) :
    ("\n  async fill" ++ p ++ "(value: string): Promise<void> \x7b\n    await this." ++ n
      ++ ".fill(value);\n  \x7d\n").data
      = (([[], ("  async fill").data ++ p.data ++ ("(value: string): Promise<void> \x7b").data,
          ("    await this.").data ++ n.data ++ (".fill(value);").data,
          ("  \x7d").data]).map (fun x => x ++ ['\n'])).flatten := by
  have e1 : ("\n  async fill").data = '\n' :: ("  async fill").data := by decide
  have e2 : ("(value: string): Promise<void> \x7b\n    await this.").data
      = ("(value: string): Promise<void> \x7b").data ++ '\n' :: ("    await this.").data := by
    decide
  have e3 : (".fill(value);\n  \x7d\n").data
      = (".fill(value);").data ++ '\n' :: (("  \x7d").data ++ ['\n']) := by decide
  simp only [String.data_append, e1, e2, e3, List.map_cons, List.map_nil, List.flatten_cons,
    List.flatten_nil, List.nil_append, List.append_nil, List.cons_append, List.append_assoc]

lemma select_chunk_data (p n : String) :
    ("\n  async select" ++ p ++ "(value: string): Promise<void> \x7b\n    await this." ++ n
      ++ ".selectOption(value);\n  \x7d\n").data
      = (([[], ("  async select").data ++ p.data ++ ("(value: string): Promise<void> \x7b").data,
          ("    await this.").data ++ n.data ++ (".selectOption(value);").data,
          ("  \x7d").data]).map (fun x => x ++ ['\n'])).flatten := by
  have e1 : ("\n  async select").data = '\n' :: ("  async select").data := by decide
  have e2 : ("(value: string): Promise<void> \x7b\n    await this.").data
      = ("(value: string): Promise<void> \x7b").data ++ '\n' :: ("    await this.").data := by
    decide
  have e3 : (".selectOption(value);\n  \x7d\n").data
      = (".selectOption(value);").data ++ '\n' :: (("  \x7d").data ++ ['\n']) := by decide
  simp only [String.data_append, e1, e2, e3, List.map_cons, List.map_nil, List.flatten_cons,
    List.flatten_nil, List.nil_append, List.append_nil, List.cons_append, List.append_assoc]

lemma check_chunk_data (p n : String) :
    ("\n  async check" ++ p ++ "(): Promise<void> \x7b\n    await this." ++ n
      ++ ".check();\n  \x7d\n\n  async uncheck" ++ p ++ "(): Promise<void> \x7b\n    await this."
      ++ n ++ ".uncheck();\n  \x7d\n").data
      = (([[], ("  async check").data ++ p.data ++ ("(): Promise<void> \x7b").data,
          ("    await this.").data ++ n.data ++ (".check();").data, ("  \x7d").data,
          [], ("  async uncheck").data ++ p.data ++ ("(): Promise<void> \x7b").data,
          ("    await this.").data ++ n.data ++ (".uncheck();").data,
          ("  \x7d").data]).map (fun x => x ++ ['\n'])).flatten := by
  have e1 : ("\n  async check").data = '\n' :: ("  async check").data := by decide
  have e2 : ("(): Promise<void> \x7b\n    await this.").data
      = ("(): Promise<void> \x7b").data ++ '\n' :: ("    await this.").data := by decide
  have e3 : (".check();\n  \x7d\n\n  async uncheck").data
      = (".check();").data ++ '\n' :: (("  \x7d").data
          ++ '\n' :: ('\n' :: ("  async uncheck").data)) := by decide
  have e4 : (".uncheck();\n  \x7d\n").data
      = (".uncheck();").data ++ '\n' :: (("  \x7d").data ++ ['\n']) := by decide
  simp only [String.data_append, e1, e2, e3, e4, List.map_cons, List.map_nil, List.flatten_cons,
    List.flatten_nil, List.nil_append, List.append_nil, List.cons_append, List.append_assoc]

lemma link_chunk_data (p n : String) :
    ("\n  async click" ++ p ++ "Link(): Promise<void> \x7b\n    await this." ++ n
      ++ ".click();\n  \x7d\n").data
      = (([[], ("  async click").data ++ p.data ++ ("Link(): Promise<void> \x7b").data,
          ("    await this.").data ++ n.data ++ (".click();").data,
          ("  \x7d").data]).map (fun x => x ++ ['\n'])).flatten := by
  have e1 : ("\n  async click").data = '\n' :: ("  async click").data := by decide
  have e2 : ("Link(): Promise<void> \x7b\n    await this.").data
      = ("Link(): Promise<void> \x7b").data ++ '\n' :: ("    await this.").data := by decide
  have e3 : (".click();\n  \x7d\n").data
      = (".click();").data ++ '\n' :: (("  \x7d").data ++ ['\n']) := by decide
  simp only [String.data_append, e1, e2, e3, List.map_cons, List.map_nil, List.flatten_cons,
    List.flatten_nil, List.nil_append, List.append_nil, List.cons_append, List.append_assoc]

lemma generateHelperMethods_data (es : List AnalyzedElement) :
    (generateHelperMethods es).data
      = ((helperLines es).map (fun x => x ++ ['\n'])).flatten := by
  unfold generateHelperMethods
  rw [foldl_append_data, foldl_append_data, foldl_append_data, foldl_append_data,
    foldl_append_data]
  simp only [click_chunk_data, fill_chunk_data, select_chunk_data, check_chunk_data,
    link_chunk_data]
  rw [flatten_chunks_eq, flatten_chunks_eq, flatten_chunks_eq, flatten_chunks_eq,
    flatten_chunks_eq]
  rw [helperLines]
  simp [List.map_append, List.flatten_append, List.append_assoc]

/-- The individual text lines of the whole generated artifact. -/
def templateLines (config : GeneratorConfig) (pageName : String)
    (elements : AnalyzedPage) : List (List Char) :=
  let cn := (toPascalCase pageName ++ "Page").data
  let uniq := deduplicateElements (flattenElements elements)
  [("import \x7b Page, Locator \x7d from '@playwright/test';").data, [],
    ("export class ").data ++ cn ++ (" \x7b").data, ("  readonly page: Page;").data]
  ++ uniq.map (fun e => ("  readonly ").data ++ e.name.data ++ (": Locator;").data)
  ++ [[], ("  constructor(page: Page) \x7b").data, ("    this.page = page;").data]
  ++ uniq.map (fun e => ("    this.").data ++ e.name.data ++ (" = page.").data
        ++ e.locatorCode.data ++ (";").data)
  ++ [("  \x7d").data]
  ++ (if config.templateOptions.includeGotoMethod then
        [[], ("  async goto(url: string): Promise<void> \x7b").data,
         ("    await this.page.goto(url);").data, ("  \x7d").data]
      else [])
  ++ (if config.templateOptions.generateHelperMethods then
        helperLines (deduplicateElements (flattenElements elements))
      else [])
  ++ [("\x7d").data]

lemma decl_line_data (n : String) :
    ("  readonly " ++ n ++ ": Locator;\n").data
      = (("  readonly ").data ++ n.data ++ (": Locator;").data) ++ ['\n'] := by
  have e1 : (": Locator;\n").data = (": Locator;").data ++ ['\n'] := by decide
  simp [String.data_append, e1]

lemma wire_line_data (n c : String) :
    ("    this." ++ n ++ " = page." ++ c ++ ";\n").data
      = (("    this.").data ++ n.data ++ (" = page.").data ++ c.data ++ (";").data)
          ++ ['\n'] := by
  have e1 : (";\n").data = (";").data ++ ['\n'] := by decide
  simp [String.data_append, e1]

set_option maxRecDepth 8000 in
lemma template_data_eq (config : GeneratorConfig) (pageName : String)
    (elements : AnalyzedPage) :
    (generateTemplate config pageName elements).data
      = ((templateLines config pageName elements).map (fun x => x ++ ['\n'])).flatten := by
  have h1 : ("import \x7b Page, Locator \x7d from '@playwright/test';\n\nexport class ").data
      = ("import \x7b Page, Locator \x7d from '@playwright/test';").data
          ++ '\n' :: ('\n' :: ("export class ").data) := by decide
  have h2 : (" \x7b\n  readonly page: Page;\n").data
      = (" \x7b").data ++ '\n' :: (("  readonly page: Page;").data ++ ['\n']) := by decide
  have h3 : ("\n  constructor(page: Page) \x7b\n    this.page = page;\n").data
      = '\n' :: (("  constructor(page: Page) \x7b").data
          ++ '\n' :: (("    this.page = page;").data ++ ['\n'])) := by decide
  have h4 : ("  \x7d\n").data = ("  \x7d").data ++ ['\n'] := by decide
  have h5 : ("\n  async goto(url: string): Promise<void> \x7b\n    await this.page.goto(url);\n  \x7d\n").data
      = '\n' :: (("  async goto(url: string): Promise<void> \x7b").data
          ++ '\n' :: (("    await this.page.goto(url);").data
            ++ '\n' :: (("  \x7d").data ++ ['\n']))) := by decide
  have h6 : ("\x7d\n").data = ("\x7d").data ++ ['\n'] := by decide
  unfold generateTemplate templateLines
  by_cases hg : config.templateOptions.includeGotoMethod
    <;> by_cases hh : config.templateOptions.generateHelperMethods
    <;> simp only [hg, hh, if_true, if_false, Bool.false_eq_true, ite_true, ite_false,
      foldl_append_data, generateHelperMethods_data, String.data_append,
      decl_line_data, wire_line_data, h1, h2, h3, h4, h5, h6]
    <;> simp [List.map_append, List.flatten_append, List.map_map, List.append_assoc,
      Function.comp_def]

lemma declLineOf_decl (n : String) :
    declLineOf (("  readonly ").data ++ n.data ++ (": Locator;").data) = some n := by
  have hp : ("  readonly ").data.length = 11 := by decide
  have hs : (": Locator;").data.length = 10 := by decide
  have hlen : (("  readonly ").data ++ n.data ++ (": Locator;").data).length
      = 21 + n.data.length := by
    simp only [List.length_append, hp, hs]
    omega
  unfold declLineOf
  rw [if_pos]
  · congr 1
    rw [List.append_assoc, List.drop_left' hp]
    have hlen2 : (("  readonly ").data ++ (n.data ++ (": Locator;").data)).length
        = 21 + n.data.length := by
      simp only [List.length_append, hp, hs]
      omega
    rw [hlen2]
    have htk : 21 + n.data.length - 21 = n.data.length := by omega
    rw [htk, List.take_left' rfl]
  · simp only [Bool.and_eq_true, decide_eq_true_eq]
    refine ⟨⟨?_, ?_⟩, ?_⟩
    · exact List.isPrefixOf_iff_prefix.mpr
        ⟨n.data ++ (": Locator;").data, by rw [List.append_assoc]⟩
    · exact List.isSuffixOf_iff_suffix.mpr
        ⟨("  readonly ").data ++ n.data, by rw [List.append_assoc]⟩
    · rw [hlen]
      omega

lemma declLineOf_head (c : Char) (l : List Char) (h : c ≠ ' ') :
    declLineOf (c :: l) = none := by
  unfold declLineOf
  rw [if_neg]
  intro hcond
  simp only [Bool.and_eq_true] at hcond
  obtain ⟨t, ht⟩ := List.isPrefixOf_iff_prefix.mp hcond.1.1
  simp only [List.cons_append, List.cons.injEq] at ht
  exact h ht.1.symm

lemma declLineOf_third (c : Char) (l : List Char) (h : c ≠ 'r') :
    declLineOf (' ' :: ' ' :: c :: l) = none := by
  unfold declLineOf
  rw [if_neg]
  intro hcond
  simp only [Bool.and_eq_true] at hcond
  obtain ⟨t, ht⟩ := List.isPrefixOf_iff_prefix.mp hcond.1.1
  simp only [List.cons_append, List.cons.injEq] at ht
  rcases ht with ⟨-, -, h3, -⟩
  exact h h3.symm

lemma declLineOf_of_start3 (c : Char) (X Y : List Char) (hc : c ≠ 'r') :
    declLineOf ((' ' :: ' ' :: c :: X) ++ Y) = none := by
  simp only [List.cons_append]
  exact declLineOf_third c (X ++ Y) hc

lemma filterMap_some_map {α β : Type} (f : α → β) (l : List α) :
    l.filterMap (fun a => some (f a)) = l.map f := by
  induction l with
  | nil => rfl
  | cons a rest ih => simp [List.filterMap_cons, ih]

lemma declLineOf_take3 (l : List Char) (h : l.take 3 ≠ [' ', ' ', 'r']) :
    declLineOf l = none := by
  unfold declLineOf
  rw [if_neg]
  intro hcond
  simp only [Bool.and_eq_true] at hcond
  obtain ⟨t, ht⟩ := List.isPrefixOf_iff_prefix.mp hcond.1.1
  apply h
  rw [← ht]
  rfl

lemma helperLines_declLineOf_none (es : List AnalyzedElement) :
    ∀ l ∈ helperLines es, declLineOf l = none := by
  intro l hl
  unfold helperLines at hl
  simp only [List.mem_append, List.mem_flatten, List.mem_map] at hl
  rcases hl with ((((⟨ls, ⟨b, hb, rfl⟩, hlm⟩ | ⟨ls, ⟨b, hb, rfl⟩, hlm⟩)
      | ⟨ls, ⟨b, hb, rfl⟩, hlm⟩) | ⟨ls, ⟨b, hb, rfl⟩, hlm⟩) | ⟨ls, ⟨b, hb, rfl⟩, hlm⟩)
    <;> simp only [List.mem_cons, List.mem_singleton, List.not_mem_nil, or_false] at hlm
  · rcases hlm with rfl | rfl | rfl | rfl
      <;> apply declLineOf_take3 <;> simp
  · rcases hlm with rfl | rfl | rfl | rfl
      <;> apply declLineOf_take3 <;> simp
  · rcases hlm with rfl | rfl | rfl | rfl
      <;> apply declLineOf_take3 <;> simp
  · rcases hlm with rfl | rfl | rfl | rfl | rfl | rfl | rfl | rfl
      <;> apply declLineOf_take3 <;> simp
  · rcases hlm with rfl | rfl | rfl | rfl
      <;> apply declLineOf_take3 <;> simp

lemma helperLines_no_nl (es : List AnalyzedElement)
    (hcl : ∀ e ∈ es, '\n' ∉ e.name.data) :
    ∀ l ∈ helperLines es, '\n' ∉ l := by
  intro l hl
  unfold helperLines at hl
  simp only [List.mem_append, List.mem_flatten, List.mem_map] at hl
  rcases hl with ((((⟨ls, ⟨b, hb, rfl⟩, hlm⟩ | ⟨ls, ⟨b, hb, rfl⟩, hlm⟩)
      | ⟨ls, ⟨b, hb, rfl⟩, hlm⟩) | ⟨ls, ⟨b, hb, rfl⟩, hlm⟩) | ⟨ls, ⟨b, hb, rfl⟩, hlm⟩)
    <;> have hbname : '\n' ∉ b.name.data := hcl b (List.mem_filter.mp hb).1
    <;> simp only [List.mem_cons, List.mem_singleton, List.not_mem_nil, or_false] at hlm
    <;> [skip; skip; skip; skip; skip]
  · rcases hlm with rfl | rfl | rfl | rfl
    · simp
    · intro hm
      rcases List.mem_append.mp hm with hm2 | hm2
      · rcases List.mem_append.mp hm2 with hm3 | hm3
        · exact absurd hm3 (by decide)
        · exact toPascalCase_no_nl _ hm3
      · exact absurd hm2 (by decide)
    · intro hm
      rcases List.mem_append.mp hm with hm2 | hm2
      · rcases List.mem_append.mp hm2 with hm3 | hm3
        · exact absurd hm3 (by decide)
        · exact hbname hm3
      · exact absurd hm2 (by decide)
    · simp
  · rcases hlm with rfl | rfl | rfl | rfl
    · simp
    · intro hm
      rcases List.mem_append.mp hm with hm2 | hm2
      · rcases List.mem_append.mp hm2 with hm3 | hm3
        · exact absurd hm3 (by decide)
        · exact toPascalCase_no_nl _ hm3
      · exact absurd hm2 (by decide)
    · intro hm
      rcases List.mem_append.mp hm with hm2 | hm2
      · rcases List.mem_append.mp hm2 with hm3 | hm3
        · exact absurd hm3 (by decide)
        · exact hbname hm3
      · exact absurd hm2 (by decide)
    · simp
  · rcases hlm with rfl | rfl | rfl | rfl
    · simp
    · intro hm
      rcases List.mem_append.mp hm with hm2 | hm2
      · rcases List.mem_append.mp hm2 with hm3 | hm3
        · exact absurd hm3 (by decide)
        · exact toPascalCase_no_nl _ hm3
      · exact absurd hm2 (by decide)
    · intro hm
      rcases List.mem_append.mp hm with hm2 | hm2
      · rcases List.mem_append.mp hm2 with hm3 | hm3
        · exact absurd hm3 (by decide)
        · exact hbname hm3
      · exact absurd hm2 (by decide)
    · simp
  · rcases hlm with rfl | rfl | rfl | rfl | rfl | rfl | rfl | rfl
    · simp
    · intro hm
      rcases List.mem_append.mp hm with hm2 | hm2
      · rcases List.mem_append.mp hm2 with hm3 | hm3
        · exact absurd hm3 (by decide)
        · exact toPascalCase_no_nl _ hm3
      · exact absurd hm2 (by decide)
    · intro hm
      rcases List.mem_append.mp hm with hm2 | hm2
      · rcases List.mem_append.mp hm2 with hm3 | hm3
        · exact absurd hm3 (by decide)
        · exact hbname hm3
      · exact absurd hm2 (by decide)
    · simp
    · simp
    · intro hm
      rcases List.mem_append.mp hm with hm2 | hm2
      · rcases List.mem_append.mp hm2 with hm3 | hm3
        · exact absurd hm3 (by decide)
        · exact toPascalCase_no_nl _ hm3
      · exact absurd hm2 (by decide)
    · intro hm
      rcases List.mem_append.mp hm with hm2 | hm2
      · rcases List.mem_append.mp hm2 with hm3 | hm3
        · exact absurd hm3 (by decide)
        · exact hbname hm3
      · exact absurd hm2 (by decide)
    · simp
  · rcases hlm with rfl | rfl | rfl | rfl
    · simp
    · intro hm
      rcases List.mem_append.mp hm with hm2 | hm2
      · rcases List.mem_append.mp hm2 with hm3 | hm3
        · exact absurd hm3 (by decide)
        · exact toPascalCase_no_nl _ hm3
      · exact absurd hm2 (by decide)
    · intro hm
      rcases List.mem_append.mp hm with hm2 | hm2
      · rcases List.mem_append.mp hm2 with hm3 | hm3
        · exact absurd hm3 (by decide)
        · exact hbname hm3
      · exact absurd hm2 (by decide)
    · simp

lemma templateLines_no_nl (config : GeneratorConfig) (pageName : String)
    (p : AnalyzedPage)
    (hclean : ∀ e ∈ flattenElements p, ('\n' ∉ e.name.data) ∧ ('\n' ∉ e.locatorCode.data)) :
    ∀ l ∈ templateLines config pageName p, '\n' ∉ l := by
  intro l hl
  have hcl := dedup_clean _ hclean
  unfold templateLines at hl
  simp only [List.mem_append, List.mem_cons, List.mem_map, List.not_mem_nil, or_false,
    false_or, List.mem_ite_nil_right] at hl
  rcases hl with (((((((rfl | rfl | rfl | rfl) | ⟨a, ha, rfl⟩) | (rfl | rfl | rfl))
      | ⟨a, ha, rfl⟩) | rfl) | ⟨-, (rfl | rfl | rfl | rfl)⟩) | ⟨-, hhelp⟩) | rfl
  · decide
  · decide
  · intro hm
    rcases List.mem_append.mp hm with hm2 | hm2
    · rcases List.mem_append.mp hm2 with hm3 | hm3
      · exact absurd hm3 (by decide)
      · rw [String.data_append] at hm3
        rcases List.mem_append.mp hm3 with hm4 | hm4
        · exact toPascalCase_no_nl pageName hm4
        · exact absurd hm4 (by decide)
    · exact absurd hm2 (by decide)
  · decide
  · intro hm
    rcases List.mem_append.mp hm with hm2 | hm2
    · rcases List.mem_append.mp hm2 with hm3 | hm3
      · exact absurd hm3 (by decide)
      · exact (hcl a ha).1 hm3
    · exact absurd hm2 (by decide)
  · decide
  · decide
  · decide
  · intro hm
    rcases List.mem_append.mp hm with hm2 | hm2
    · rcases List.mem_append.mp hm2 with hm3 | hm3
      · rcases List.mem_append.mp hm3 with hm4 | hm4
        · rcases List.mem_append.mp hm4 with hm5 | hm5
          · exact absurd hm5 (by decide)
          · exact (hcl a ha).1 hm5
        · exact absurd hm4 (by decide)
      · exact (hcl a ha).2 hm3
    · exact absurd hm2 (by decide)
  · decide
  · decide
  · decide
  · decide
  · decide
  · exact helperLines_no_nl _ (fun e he => (hcl e he).1) l hhelp
  · decide

lemma declLineOf_decl3 (n : String) :
    declLineOf ([' ', ' ', 'r', 'e', 'a', 'd', 'o', 'n', 'l', 'y', ' '] ++ n.data
        ++ [':', ' ', 'L', 'o', 'c', 'a', 't', 'o', 'r', ';']) = some n :=
  declLineOf_decl n

lemma declLineOf_decl2 (n : String) :
    declLineOf (' ' :: ' ' :: 'r' :: 'e' :: 'a' :: 'd' :: 'o' :: 'n' :: 'l' :: 'y' :: ' '
        :: (n.data ++ [':', ' ', 'L', 'o', 'c', 'a', 't', 'o', 'r', ';'])) = some n :=
  declLineOf_decl n

/-- C8 (amended): the declaration block of the emitted artifact contains
exactly one `readonly …: Locator` field per deduplicated element, in the
order buttons, inputs, links, selects, checkboxes, radios, textareas,
headings, others — the `other` category is included in declarations and
constructor wiring, and is excluded only from helper-method generation
(a batch consisting solely of `other` elements yields no helper methods). -/
theorem template_decl_spec (config : GeneratorConfig) (pageName : String)
    (p : AnalyzedPage)
    (hclean : ∀ e ∈ flattenElements p, ('\n' ∉ e.name.data) ∧ ('\n' ∉ e.locatorCode.data)) :
    declNames (generateTemplate config pageName p)
      = (deduplicateElements (flattenElements p)).map (fun e => e.name)
    ∧ (∀ es : List AnalyzedElement, (∀ e ∈ es, e.elementType = ElementType.other) →
        generateHelperMethods es = "") := by
  constructor
  · unfold declNames
    rw [template_data_eq]
    have hnl := templateLines_no_nl config pageName p hclean
    have hch : lines (((templateLines config pageName p).map (fun x => x ++ ['\n'])).flatten)
        = templateLines config pageName p ++ [[]] := by
      have h0 := lines_chunks (templateLines config pageName p) [] hnl
      simpa using h0
    rw [hch]
    have hdecl : ∀ us : List AnalyzedElement,
        List.filterMap declLineOf (us.map (fun e =>
          [' ', ' ', 'r', 'e', 'a', 'd', 'o', 'n', 'l', 'y', ' '] ++ e.name.data
            ++ [':', ' ', 'L', 'o', 'c', 'a', 't', 'o', 'r', ';']))
          = us.map (fun e => e.name) := by
      intro us
      induction us with
      | nil => rfl
      | cons a rest ih =>
        rw [List.map_cons, List.filterMap_cons_some (declLineOf_decl3 a.name), ih,
          List.map_cons]
    have hwire : ∀ us : List AnalyzedElement,
        List.filterMap declLineOf (us.map (fun e =>
          [' ', ' ', ' ', ' ', 't', 'h', 'i', 's', '.'] ++ e.name.data
            ++ [' ', '=', ' ', 'p', 'a', 'g', 'e', '.'] ++ e.locatorCode.data
            ++ [';'])) = [] := by
      intro us
      rw [List.filterMap_eq_nil_iff]
      intro a ha
      obtain ⟨e, -, rfl⟩ := List.mem_map.mp ha
      apply declLineOf_take3
      simp
    have hhead : List.filterMap declLineOf
        [("import \x7b Page, Locator \x7d from '@playwright/test';").data, [],
         ("export class ").data ++ (toPascalCase pageName ++ "Page").data ++ (" \x7b").data,
         ("  readonly page: Page;").data] = [] := by
      rw [List.filterMap_eq_nil_iff]
      intro a ha
      simp only [List.mem_cons, List.not_mem_nil, or_false] at ha
      rcases ha with rfl | rfl | rfl | rfl
      · decide
      · decide
      · apply declLineOf_take3
        simp
      · decide
    have hmid : List.filterMap declLineOf
        [[], ("  constructor(page: Page) \x7b").data, ("    this.page = page;").data] = [] := by
      decide
    have hclose : List.filterMap declLineOf [("  \x7d").data] = [] := by decide
    have hgoto : List.filterMap declLineOf
        [[], ("  async goto(url: string): Promise<void> \x7b").data,
         ("    await this.page.goto(url);").data, ("  \x7d").data] = [] := by
      decide
    have hhelp : List.filterMap declLineOf
        (helperLines (deduplicateElements (flattenElements p))) = [] := by
      rw [List.filterMap_eq_nil_iff]
      exact helperLines_declLineOf_none _
    have hlast : List.filterMap declLineOf [("\x7d").data] = [] := by decide
    have hnilline : List.filterMap declLineOf [([] : List Char)] = [] := by decide
    unfold templateLines
    by_cases hg : config.templateOptions.includeGotoMethod
      <;> by_cases hh : config.templateOptions.generateHelperMethods
      <;> simp only [hg, hh, ite_true, ite_false, Bool.false_eq_true, if_true, if_false,
        List.filterMap_append, hdecl, hwire, hhead, hmid, hclose, hgoto, hhelp, hlast,
        hnilline, List.filterMap_nil, List.append_nil, List.nil_append]
  · intro es he
    unfold generateHelperMethods
    have hb : es.filter (fun e => e.elementType == ElementType.button) = [] :=
      List.filter_eq_nil_iff.mpr (fun a ha => by rw [he a ha]; decide)
    have hi : es.filter (fun e => e.elementType == ElementType.input
        || e.elementType == ElementType.textarea) = [] :=
      List.filter_eq_nil_iff.mpr (fun a ha => by rw [he a ha]; decide)
    have hs : es.filter (fun e => e.elementType == ElementType.select) = [] :=
      List.filter_eq_nil_iff.mpr (fun a ha => by rw [he a ha]; decide)
    have hc : es.filter (fun e => e.elementType == ElementType.checkbox) = [] :=
      List.filter_eq_nil_iff.mpr (fun a ha => by rw [he a ha]; decide)
    have hl : es.filter (fun e => e.elementType == ElementType.link) = [] :=
      List.filter_eq_nil_iff.mpr (fun a ha => by rw [he a ha]; decide)
    rw [hb, hi, hs, hc, hl]
    rfl

def otherWidget : AnalyzedElement :=
  { name := "widgetElement", locatorCode := "locator('.widget')",
    locatorType := LocatorType.locator, elementType := ElementType.other,
    originalInfo := demoInfo }

def otherOnlyPage : AnalyzedPage :=
  { buttons := [], inputs := [], links := [], selects := [], checkboxes := [],
    radios := [], textareas := [], headings := [], others := [otherWidget] }

set_option maxRecDepth 10000 in
/-- C8 counterexample: an analyzed page whose only element has category
`other` still yields a field declaration and a constructor wiring for that
element in the generated code — the `other` category is not excluded from
code generation. -/
theorem template_other_declared_cex :
    otherWidget.elementType = ElementType.other
    ∧ declNames (generateTemplate DEFAULT_CONFIG "sample" otherOnlyPage) = ["widgetElement"]
    ∧ (("    this.widgetElement = page.locator('.widget');").data
        <:+: (generateTemplate DEFAULT_CONFIG "sample" otherOnlyPage).data) := by
  refine ⟨rfl, by decide, by decide⟩

set_option maxRecDepth 10000 in
/-- Witness for C8 (amended) at a concrete page whose only element has
category other. -/
theorem template_decl_spec_witness :
    declNames (generateTemplate DEFAULT_CONFIG "sample" otherOnlyPage)
      = (deduplicateElements (flattenElements otherOnlyPage)).map (fun e => e.name) :=
  (template_decl_spec DEFAULT_CONFIG "sample" otherOnlyPage (by decide)).1
